import Mathlib

/-!
Ledger store (`internal/ledger/store.go`)

A shallow embedding of the in-memory ledger store and of the properties its
specification states about it.

Modelling conventions

* `float64` quantities (`Amount`, `RunningBalance`) are exact rationals `ℚ`.
  Statements about balances name the operation the code performs
  (`round (a + b) 4`, `round (a - b) 4`) or the sign of its result; bounds on
  the distance between `round v 4` and `v` are stated only in the section on
  rounding to four decimal places, over exact decimal arithmetic.
* `map[string]*Ledger` is an association list searched from the front; every
  key owns its own, non-nil `Ledger`.  Assigning through the pointer
  (`ledger.Transactions = append(...)`) rewrites the entry found by the lookup.
* The results of `s.uuid.Generate()` and `time.Now().UTC().UnixMilli()` are
  inputs of the call that consumes them (`uuid`, `now`).
* A Go method returning `(T, error)` and mutating the receiver becomes a
  function returning the pair of its result (`Except Error T`) and the store
  after the call.
* Logging (`zap`) has no effect on the store and is left out.
-/

namespace ledger

/-! ## Data model (store.go, lines 13-57) -/

/-- TransactionType is `type TransactionType string`: any string is a value. -/
abbrev TransactionType := String

/-- The constant `Credit TransactionType = "credit"`. -/
def Credit : TransactionType := "credit"

/-- The constant `Debit TransactionType = "debit"`. -/
def Debit : TransactionType := "debit"

/-- Transaction is a single ledger entry (the field `Type` is spelled `Typ`). -/
structure Transaction where
  ID : String
  Date : Int
  Typ : TransactionType
  Description : String
  Amount : ℚ
  RunningBalance : ℚ
deriving DecidableEq

/-- Ledger holds the ledger metadata and transaction history. -/
structure Ledger where
  ID : String
  Typ : String
  Transactions : List Transaction
deriving DecidableEq

/-- TransactionRequestDTO is the request payload of a credit or debit. -/
structure TransactionRequestDTO where
  Typ : TransactionType
  Description : String
  Amount : ℚ
deriving DecidableEq

/-- The two error sites of the store: `LedgerNotFound` is the error built in
`getLedgerWithBalance` (line 140, wrapped by each caller), `InsufficientFunds`
the one built in `Debit` (line 97). -/
inductive Error where
  | LedgerNotFound
  | InsufficientFunds
deriving DecidableEq

/-- The in-memory store: the map from ledger identifier to ledger. -/
structure store where
  ledgers : List (String × Ledger)
deriving DecidableEq

/-! ## Map access -/

/-- Map read `s.ledgers[id]`: the ledger bound to `id`, if any. -/
def lookup : List (String × Ledger) → String → Option Ledger
  | [], _ => none
  | (k, l) :: rest, id => if k = id then some l else lookup rest id

/-- Effect of `ledger.Transactions = txs` on the ledger the map binds to `id`. -/
def assign : List (String × Ledger) → String → List Transaction → List (String × Ledger)
  | [], _, _ => []
  | (k, l) :: rest, id, txs =>
    if k = id then (k, { l with Transactions := txs }) :: rest
    else (k, l) :: assign rest id txs

/-! ## Rounding (store.go, lines 150-154) -/

/-- Go's `math.Round`: the nearest integer, halves rounded away from zero. -/
def mathRound (x : ℚ) : ℤ :=
  if 0 ≤ x then ⌊x + 1 / 2⌋ else -⌊-x + 1 / 2⌋

/-- The function `round` rounds a value to `precision` decimal places. -/
def round (val : ℚ) (precision : ℕ) : ℚ :=
  let ratio : ℚ := (10 : ℚ) ^ precision
  (mathRound (val * ratio) : ℚ) / ratio

/-! ## Store operations (store.go, lines 67-148) -/

/-- The method `getLedgerWithBalance` retrieves the ledger and its last balance. -/
def store.getLedgerWithBalance (s : store) (id : String) : Except Error (Ledger × ℚ) :=
  match lookup s.ledgers id with
  | none => .error .LedgerNotFound
  | some ledger =>
    if h : ledger.Transactions.length > 0 then
      .ok (ledger,
        (ledger.Transactions.get ⟨ledger.Transactions.length - 1, by omega⟩).RunningBalance)
    else .ok (ledger, 0)

/-- The method `Credit` adds a credit transaction to the ledger. -/
def store.Credit (s : store) (ledgerId : String) (trd : TransactionRequestDTO)
    (uuid : String) (now : Int) : Except Error Transaction × store :=
  match s.getLedgerWithBalance ledgerId with
  | .error e => (.error e, s)
  | .ok (ledger, lastBalance) =>
    let newBalance := lastBalance + trd.Amount
    let newTransaction : Transaction :=
      { ID := uuid
        Date := now
        Typ := trd.Typ
        Description := trd.Description
        Amount := trd.Amount
        RunningBalance := round newBalance 4 }
    (.ok newTransaction,
      { s with ledgers := assign s.ledgers ledgerId (ledger.Transactions ++ [newTransaction]) })

/-- The method `Debit` subtracts an amount from the ledger. -/
def store.Debit (s : store) (ledgerId : String) (trd : TransactionRequestDTO)
    (uuid : String) (now : Int) : Except Error Transaction × store :=
  match s.getLedgerWithBalance ledgerId with
  | .error e => (.error e, s)
  | .ok (ledger, lastBalance) =>
    let newBalance := lastBalance - trd.Amount
    if newBalance ≤ 0 then (.error .InsufficientFunds, s)
    else
      let newTransaction : Transaction :=
        { ID := uuid
          Date := now
          Typ := trd.Typ
          Description := trd.Description
          Amount := trd.Amount
          RunningBalance := round newBalance 4 }
      (.ok newTransaction,
        { s with ledgers := assign s.ledgers ledgerId (ledger.Transactions ++ [newTransaction]) })

/-- The method `GetLastBalance` returns the last balance of a ledger. -/
def store.GetLastBalance (s : store) (ledgerId : String) : Except Error ℚ × store :=
  match s.getLedgerWithBalance ledgerId with
  | .error e => (.error e, s)
  | .ok (_, lastBalance) => (.ok lastBalance, s)

/-- The method `GetTransactionHistory` returns the transactions of a ledger. -/
def store.GetTransactionHistory (s : store) (ledgerId : String) :
    Except Error (List Transaction) × store :=
  match s.getLedgerWithBalance ledgerId with
  | .error e => (.error e, s)
  | .ok (ledger, _) => (.ok ledger.Transactions, s)

/-! ## Sequences of calls -/

/-- Which mutator a call invokes. -/
inductive Method where
  | credit
  | debit
deriving DecidableEq

/-- One `Credit` or `Debit` call with its arguments and the identifier and
clock reading it would consume. -/
structure Call where
  method : Method
  ledgerId : String
  trd : TransactionRequestDTO
  uuid : String
  now : Int
deriving DecidableEq

/-- Performs one call on the store. -/
def store.call (s : store) (c : Call) : Except Error Transaction × store :=
  match c.method with
  | .credit => s.Credit c.ledgerId c.trd c.uuid c.now
  | .debit => s.Debit c.ledgerId c.trd c.uuid c.now

/-- Performs the calls one after another; returns each call's result, in
order, and the final store. -/
def store.run (s : store) : List Call → List (Except Error Transaction) × store
  | [] => ([], s)
  | c :: cs => ((s.call c).1 :: ((s.call c).2.run cs).1, ((s.call c).2.run cs).2)

/-! ## Vocabulary of the specification -/

/-- The balance a transaction sequence stands for: 0 when it is empty,
otherwise the running balance of its last element. -/
def lastBalance : List Transaction → ℚ
  | [] => 0
  | [t] => t.RunningBalance
  | _ :: t :: ts => lastBalance (t :: ts)

/-- The transactions returned by the successful calls made on ledger `id`,
in call order (`rs` are the results of the calls `cs`). -/
def appended (id : String) : List Call → List (Except Error Transaction) → List Transaction
  | c :: cs, .ok t :: rs => if c.ledgerId = id then t :: appended id cs rs else appended id cs rs
  | _ :: cs, .error _ :: rs => appended id cs rs
  | _, _ => []

/-- What a call adds to the balance before rounding: its amount for a
credit, minus its amount for a debit. -/
def signedAmount (c : Call) : ℚ :=
  match c.method with
  | .credit => c.trd.Amount
  | .debit => -c.trd.Amount

/-- The credits less the debits of a list of calls. -/
def net (cs : List Call) : ℚ := (cs.map signedAmount).sum

/-- The running balance a successful call records when made at balance `b`:
`round(lastBalance + amount, 4)` for Credit, `round(lastBalance - amount, 4)`
for Debit. -/
def recorded (b : ℚ) (c : Call) : ℚ :=
  match c.method with
  | .credit => round (b + c.trd.Amount) 4
  | .debit => round (b - c.trd.Amount) 4

/-- The balance reached from `b` when each call is applied exactly once, in
call order. -/
def replay (b : ℚ) : List Call → ℚ
  | [] => b
  | c :: cs => replay (recorded b c) cs

/-! ## Example stores (the fixtures of `store_test.go`) -/

/-- A transaction `tx-old` of kind credit with the given amount and balance. -/
def txOld (amount runningBalance : ℚ) : Transaction :=
  { ID := "tx-old", Date := 1234567890, Typ := Credit, Description := "previous deposit",
    Amount := amount, RunningBalance := runningBalance }

/-- A store holding one cash ledger `id` with the given transactions. -/
def storeOf (id : String) (txs : List Transaction) : store :=
  { ledgers := [(id, { ID := id, Typ := "cash", Transactions := txs })] }

/-- A credit request. -/
def creditReq (description : String) (amount : ℚ) : TransactionRequestDTO :=
  { Typ := Credit, Description := description, Amount := amount }

/-- A debit request. -/
def debitReq (description : String) (amount : ℚ) : TransactionRequestDTO :=
  { Typ := Debit, Description := description, Amount := amount }

/-- A credit call on ledger `id`. -/
def creditCall (id : String) (amount : ℚ) (uuid : String) : Call :=
  { method := .credit, ledgerId := id, trd := creditReq "deposit" amount, uuid := uuid, now := 0 }

/-- A debit call on ledger `id`. -/
def debitCall (id : String) (amount : ℚ) (uuid : String) : Call :=
  { method := .debit, ledgerId := id, trd := debitReq "withdrawal" amount, uuid := uuid, now := 0 }

/-- A store holding the two fixtures `ledger2` (balance 50) and `ledger3`
(balance 200). -/
def twoLedgers : store :=
  { ledgers := [("ledger2", { ID := "ledger2", Typ := "cash", Transactions := [txOld 50 50] }),
      ("ledger3", { ID := "ledger3", Typ := "cash", Transactions := [txOld 200 200] })] }

/-! ## The running-balance chain -/

/-- The running-balance rule for one transaction recorded after balance
`prev`: round4(prev + amount) for kind credit, round4(prev - amount) for kind
debit. -/
def follows (prev : ℚ) (t : Transaction) : Prop :=
  (t.Typ = Credit → t.RunningBalance = round (prev + t.Amount) 4) ∧
  (t.Typ = Debit → t.RunningBalance = round (prev - t.Amount) 4)

/-- The balance before the transaction at position `i`: 0 for the first
transaction, otherwise the running balance of the transaction at `i - 1`. -/
def prevBalance (txs : List Transaction) : ℕ → ℚ
  | 0 => 0
  | j + 1 =>
    match txs.get? j with
    | some t => t.RunningBalance
    | none => 0

/-- Every transaction of the sequence obeys the running-balance rule with
respect to its predecessor. -/
def chained (txs : List Transaction) : Prop :=
  ∀ i t, txs.get? i = some t → follows (prevBalance txs i) t

/-- The same chain, by recursion on the sequence, from a starting balance. -/
def chain : ℚ → List Transaction → Prop
  | _, [] => True
  | prev, t :: ts => follows prev t ∧ chain t.RunningBalance ts

/-! ## The routing layer (handler.go) -/

/-- The constant `http.StatusOK`. -/
def StatusOK : ℕ := 200

/-- The constant `http.StatusBadRequest`. -/
def StatusBadRequest : ℕ := 400

/-- The constant `http.StatusInternalServerError`. -/
def StatusInternalServerError : ℕ := 500

/-- Store is the interface the handlers are given: four operations on some
state `σ`, each returning its result or an `error` (a value of `ε`) and the
state after the call. -/
structure Store (σ : Type) (ε : Type) where
  Credit : σ → String → TransactionRequestDTO → Except ε Transaction × σ
  Debit : σ → String → TransactionRequestDTO → Except ε Transaction × σ
  GetLastBalance : σ → String → Except ε ℚ × σ
  GetTransactionHistory : σ → String → Except ε (List Transaction) × σ

/-- NewStore gives the in-memory store as a `Store`; `uuid` and `now` are what
the generator and the clock return to the call a handler makes. -/
def NewStore (uuid : String) (now : Int) : Store store Error where
  Credit := fun s ledgerId trd => s.Credit ledgerId trd uuid now
  Debit := fun s ledgerId trd => s.Debit ledgerId trd uuid now
  GetLastBalance := fun s ledgerId => s.GetLastBalance ledgerId
  GetTransactionHistory := fun s ledgerId => s.GetTransactionHistory ledgerId

/-- The errors a handler reports, one per `errors.New`/`fmt.Errorf` site:
"failed get valid ledgerId", "failed get valid request payload", "failed get
amount greater than zero", "failed get transaction type either credit or
debit", and the three messages wrapping a store error (the first with the
request's amount). -/
inductive HandlerError (ε : Type) where
  | invalidLedgerId
  | invalidPayload
  | invalidAmount
  | invalidType
  | transactionFailed (amount : ℚ) (err : ε)
  | viewBalanceFailed (err : ε)
  | viewTransactionHistoryFailed (err : ε)
deriving DecidableEq

/-- What `SuccessHandler` is given as `data`. -/
inductive Data where
  | transaction (res : Transaction)
  | balance (balance : ℚ)
  | transactions (transactions : List Transaction)
deriving DecidableEq

/-- The JSON object a handler writes: `{"error": ...}` or `{"data": ...}`. -/
inductive Body (ε : Type) where
  | error (err : HandlerError ε)
  | data (data : Data)
deriving DecidableEq

/-- The response written by `c.JSON(statusCode, body)`. -/
structure Response (ε : Type) where
  statusCode : ℕ
  body : Body ε
deriving DecidableEq

/-- ErrorHandler writes an error response. -/
def ErrorHandler {ε : Type} (statusCode : ℕ) (err : HandlerError ε) : Response ε :=
  { statusCode := statusCode, body := .error err }

/-- SuccessHandler writes a success response. -/
def SuccessHandler {ε : Type} (statusCode : ℕ) (data : Data) : Response ε :=
  { statusCode := statusCode, body := .data data }

/-- What a handler reads from the `gin.Context`: `ctx.Param("ledgerId")` (empty
when the parameter is absent) and the outcome of `ctx.ShouldBindJSON(&req)`
(`none` when binding fails). -/
structure Context where
  ledgerId : String
  payload : Option TransactionRequestDTO
deriving DecidableEq

/-- DoTransaction performs a credit or debit operation. -/
def DoTransaction {σ ε : Type} (store : Store σ ε) (st : σ) (ctx : Context) :
    Response ε × σ :=
  let ledgerId := ctx.ledgerId
  if ledgerId = "" then (ErrorHandler StatusBadRequest .invalidLedgerId, st)
  else
    match ctx.payload with
    | none => (ErrorHandler StatusBadRequest .invalidPayload, st)
    | some req =>
      if req.Amount ≤ 0 then (ErrorHandler StatusBadRequest .invalidAmount, st)
      else if ¬ (req.Typ = Credit ∨ req.Typ = Debit) then
        (ErrorHandler StatusBadRequest .invalidType, st)
      else
        let r := if req.Typ = Credit then store.Credit st ledgerId req
          else store.Debit st ledgerId req
        match r.1 with
        | .error err =>
          (ErrorHandler StatusInternalServerError (.transactionFailed req.Amount err), r.2)
        | .ok res => (SuccessHandler StatusOK (.transaction res), r.2)

/-- ViewBalance performs the view balance operation. -/
def ViewBalance {σ ε : Type} (store : Store σ ε) (st : σ) (ctx : Context) :
    Response ε × σ :=
  let ledgerId := ctx.ledgerId
  if ledgerId = "" then (ErrorHandler StatusBadRequest .invalidLedgerId, st)
  else
    let r := store.GetLastBalance st ledgerId
    match r.1 with
    | .error err => (ErrorHandler StatusInternalServerError (.viewBalanceFailed err), r.2)
    | .ok balance => (SuccessHandler StatusOK (.balance balance), r.2)

/-- ViewTransactionHistory performs the view transaction history operation. -/
def ViewTransactionHistory {σ ε : Type} (store : Store σ ε) (st : σ) (ctx : Context) :
    Response ε × σ :=
  let ledgerId := ctx.ledgerId
  if ledgerId = "" then (ErrorHandler StatusBadRequest .invalidLedgerId, st)
  else
    let r := store.GetTransactionHistory st ledgerId
    match r.1 with
    | .error err =>
      (ErrorHandler StatusInternalServerError (.viewTransactionHistoryFailed err), r.2)
    | .ok transactions => (SuccessHandler StatusOK (.transactions transactions), r.2)

/-! ## The recording store of the handler tests (internal/mock/store.go) -/

/-- One recorded call of a `Store` method with its arguments. -/
inductive Invocation where
  | Credit (ledgerId : String) (trd : TransactionRequestDTO)
  | Debit (ledgerId : String) (trd : TransactionRequestDTO)
  | GetLastBalance (ledgerId : String)
  | GetTransactionHistory (ledgerId : String)
deriving DecidableEq

/-- The values configured with `On(...).Return(...)`, per method and arguments. -/
structure mock.Returns (ε : Type) where
  Credit : String → TransactionRequestDTO → Except ε Transaction
  Debit : String → TransactionRequestDTO → Except ε Transaction
  GetLastBalance : String → Except ε ℚ
  GetTransactionHistory : String → Except ε (List Transaction)

/-- The mock `Store`: each method records its call (`s.Called(...)`) and
returns the configured values; the state is the list of recorded calls. -/
def mock.Store {ε : Type} (r : mock.Returns ε) : Store (List Invocation) ε where
  Credit := fun calls ledgerId trd => (r.Credit ledgerId trd, calls ++ [.Credit ledgerId trd])
  Debit := fun calls ledgerId trd => (r.Debit ledgerId trd, calls ++ [.Debit ledgerId trd])
  GetLastBalance := fun calls ledgerId =>
    (r.GetLastBalance ledgerId, calls ++ [.GetLastBalance ledgerId])
  GetTransactionHistory := fun calls ledgerId =>
    (r.GetTransactionHistory ledgerId, calls ++ [.GetTransactionHistory ledgerId])

/-- The mock configuration of the successful cases of `TestDoTransaction`:
Credit returns `tx-credit-1`, Debit returns `tx-debit-1`; the two reads, which
those tests do not configure, return an error. -/
def testReturns : mock.Returns Error where
  Credit := fun _ _ => .ok ⟨"tx-credit-1", 1234567890, Credit, "deposit", 100, 100⟩
  Debit := fun _ _ => .ok ⟨"tx-debit-1", 1234567891, Debit, "withdrawal", 50, 50⟩
  GetLastBalance := fun _ => .error .LedgerNotFound
  GetTransactionHistory := fun _ => .error .LedgerNotFound

/-! ## Basic facts about the map and the balance lookup -/

theorem lastBalance_append_singleton (txs : List Transaction) (t : Transaction) :
    lastBalance (txs ++ [t]) = t.RunningBalance := by
  induction txs with
  | nil => rfl
  | cons a rest ih =>
    cases rest with
    | nil => rfl
    | cons b rest2 => simpa [lastBalance] using ih

theorem lastBalance_eq_get (txs : List Transaction) (h : txs.length > 0) :
    (txs.get ⟨txs.length - 1, by omega⟩).RunningBalance = lastBalance txs := by
  induction txs with
  | nil => simp at h
  | cons a rest ih =>
    cases rest with
    | nil => rfl
    | cons b rest2 =>
      have := ih (by simp)
      simpa [lastBalance] using this

theorem getLedgerWithBalance_of_lookup (s : store) (id : String) (l : Ledger)
    (h : lookup s.ledgers id = some l) :
    s.getLedgerWithBalance id = .ok (l, lastBalance l.Transactions) := by
  unfold store.getLedgerWithBalance
  rw [h]
  by_cases hl : l.Transactions.length > 0
  · simp only [hl, dite_true]
    rw [lastBalance_eq_get l.Transactions hl]
  · have : l.Transactions = [] := by
      cases hT : l.Transactions with
      | nil => rfl
      | cons a r => rw [hT] at hl; simp at hl
    simp [this, lastBalance]

theorem getLedgerWithBalance_of_lookup_none (s : store) (id : String)
    (h : lookup s.ledgers id = none) :
    s.getLedgerWithBalance id = .error .LedgerNotFound := by
  unfold store.getLedgerWithBalance
  rw [h]

theorem lookup_assign_same (m : List (String × Ledger)) (id : String) (l : Ledger)
    (txs : List Transaction) (h : lookup m id = some l) :
    lookup (assign m id txs) id = some { l with Transactions := txs } := by
  induction m with
  | nil => simp [lookup] at h
  | cons p rest ih =>
    obtain ⟨k, v⟩ := p
    by_cases hk : k = id
    · simp only [lookup, assign, hk, if_true] at h ⊢
      cases h; rfl
    · simp only [lookup, assign, hk, if_false] at h ⊢
      exact ih h

theorem lookup_assign_other (m : List (String × Ledger)) (id id2 : String)
    (txs : List Transaction) (h : id2 ≠ id) :
    lookup (assign m id txs) id2 = lookup m id2 := by
  induction m with
  | nil => rfl
  | cons p rest ih =>
    obtain ⟨k, v⟩ := p
    by_cases hk : k = id
    · have hk2 : ¬ k = id2 := fun e => h (e.symm.trans hk)
      simp only [lookup, assign, if_pos hk, if_neg hk2]
    · by_cases hk2 : k = id2
      · simp only [lookup, assign, if_neg hk, if_pos hk2]
      · simp only [lookup, assign, if_neg hk, if_neg hk2, ih]

theorem lookup_eq_none_iff (m : List (String × Ledger)) (id : String) :
    lookup m id = none ↔ id ∉ m.map Prod.fst := by
  induction m with
  | nil => simp [lookup]
  | cons p rest ih =>
    obtain ⟨k, v⟩ := p
    by_cases hk : k = id
    · simp [lookup, hk]
    · have hk2 : ¬ id = k := fun e => hk e.symm
      simp [lookup, hk, hk2, ih]

theorem lookup_isSome_of_mem (m : List (String × Ledger)) (id : String)
    (h : id ∈ m.map Prod.fst) : ∃ l, lookup m id = some l := by
  cases hl : lookup m id with
  | none => exact absurd h ((lookup_eq_none_iff m id).1 hl)
  | some l => exact ⟨l, rfl⟩

theorem assign_of_lookup_none (m : List (String × Ledger)) (id : String)
    (txs : List Transaction) (h : lookup m id = none) : assign m id txs = m := by
  induction m with
  | nil => rfl
  | cons p rest ih =>
    obtain ⟨k, v⟩ := p
    by_cases hk : k = id
    · simp [lookup, hk] at h
    · simp only [lookup, if_neg hk] at h
      simp only [assign, if_neg hk, ih h]

theorem map_fst_assign (m : List (String × Ledger)) (id : String) (txs : List Transaction) :
    (assign m id txs).map Prod.fst = m.map Prod.fst := by
  induction m with
  | nil => rfl
  | cons p rest ih =>
    obtain ⟨k, v⟩ := p
    by_cases hk : k = id
    · simp only [assign, if_pos hk, List.map]
    · simp only [assign, if_neg hk, List.map, ih]

/-! ## Rounding -/

theorem mathRound_intCast (n : ℤ) : mathRound (n : ℚ) = n := by
  unfold mathRound
  by_cases h : (0 : ℚ) ≤ n
  · rw [if_pos h, Int.floor_eq_iff]
    constructor <;> norm_num
  · rw [if_neg h]
    have : ⌊-(n : ℚ) + 1 / 2⌋ = -n := by
      rw [Int.floor_eq_iff]
      constructor <;> push_cast <;> norm_num
    rw [this, neg_neg]

theorem mathRound_sub_le (x : ℚ) : |(mathRound x : ℚ) - x| ≤ 1 / 2 := by
  unfold mathRound
  by_cases h : (0 : ℚ) ≤ x
  · rw [if_pos h, abs_le]
    have h1 := Int.floor_le (x + 1 / 2)
    have h2 := Int.lt_floor_add_one (x + 1 / 2)
    constructor <;> linarith
  · rw [if_neg h, abs_le]
    have h1 := Int.floor_le (-x + 1 / 2)
    have h2 := Int.lt_floor_add_one (-x + 1 / 2)
    push_cast
    constructor <;> linarith

theorem mathRound_nonneg (x : ℚ) (h : 0 ≤ x) : 0 ≤ mathRound x := by
  unfold mathRound
  rw [if_pos h]
  exact Int.floor_nonneg.2 (by linarith)

theorem mathRound_half (k : ℤ) :
    mathRound ((k : ℚ) + 1 / 2) = if 0 ≤ k then k + 1 else k := by
  unfold mathRound
  by_cases hk : 0 ≤ k
  · have hq : (0 : ℚ) ≤ (k : ℚ) + 1 / 2 := by
      have : (0 : ℚ) ≤ k := by exact_mod_cast hk
      linarith
    rw [if_pos hq, if_pos hk, Int.floor_eq_iff]
    constructor <;> push_cast <;> linarith
  · have hk1 : k ≤ -1 := by omega
    have hq : ¬ (0 : ℚ) ≤ (k : ℚ) + 1 / 2 := by
      have : (k : ℚ) ≤ -1 := by exact_mod_cast hk1
      intro h0; linarith
    rw [if_neg hq, if_neg hk]
    have : ⌊-((k : ℚ) + 1 / 2) + 1 / 2⌋ = -k := by
      rw [Int.floor_eq_iff]
      constructor <;> push_cast <;> linarith
    rw [this, neg_neg]

theorem round_four (v : ℚ) : round v 4 = (mathRound (v * 10000) : ℚ) / 10000 := by
  unfold round
  norm_num

theorem round_four_nonneg (v : ℚ) (h : 0 ≤ v) : 0 ≤ round v 4 := by
  rw [round_four]
  have : (0 : ℚ) ≤ (mathRound (v * 10000) : ℚ) := by
    exact_mod_cast mathRound_nonneg (v * 10000) (by linarith)
  positivity

theorem round_four_sub_le (v : ℚ) : |round v 4 - v| ≤ 1 / 20000 := by
  rw [round_four]
  have h := mathRound_sub_le (v * 10000)
  rw [abs_le] at h ⊢
  constructor <;> linarith [h.1, h.2]

theorem round_four_of_multiple (k : ℤ) : round ((k : ℚ) / 10000) 4 = (k : ℚ) / 10000 := by
  rw [round_four]
  have : (k : ℚ) / 10000 * 10000 = (k : ℚ) := by ring
  rw [this, mathRound_intCast]

theorem round_four_idem (v : ℚ) : round (round v 4) 4 = round v 4 := by
  rw [round_four v]
  exact round_four_of_multiple _

theorem round_four_half (k : ℤ) :
    round ((2 * (k : ℚ) + 1) / 20000) 4 = if 0 ≤ k then ((k : ℚ) + 1) / 10000 else (k : ℚ) / 10000 := by
  rw [round_four]
  have : (2 * (k : ℚ) + 1) / 20000 * 10000 = (k : ℚ) + 1 / 2 := by ring
  rw [this, mathRound_half]
  by_cases hk : 0 ≤ k
  · simp [hk]
  · simp [hk]

/-! ## What each operation computes -/

theorem Credit_of_lookup (s : store) (id : String) (l : Ledger) (trd : TransactionRequestDTO)
    (uuid : String) (now : Int) (h : lookup s.ledgers id = some l) :
    s.Credit id trd uuid now =
      (.ok ⟨uuid, now, trd.Typ, trd.Description, trd.Amount,
          round (lastBalance l.Transactions + trd.Amount) 4⟩,
        ⟨assign s.ledgers id (l.Transactions ++
          [⟨uuid, now, trd.Typ, trd.Description, trd.Amount,
            round (lastBalance l.Transactions + trd.Amount) 4⟩])⟩) := by
  unfold store.Credit
  rw [getLedgerWithBalance_of_lookup s id l h]

theorem Credit_of_lookup_none (s : store) (id : String) (trd : TransactionRequestDTO)
    (uuid : String) (now : Int) (h : lookup s.ledgers id = none) :
    s.Credit id trd uuid now = (.error .LedgerNotFound, s) := by
  unfold store.Credit
  rw [getLedgerWithBalance_of_lookup_none s id h]

theorem Debit_of_lookup_pos (s : store) (id : String) (l : Ledger) (trd : TransactionRequestDTO)
    (uuid : String) (now : Int) (h : lookup s.ledgers id = some l)
    (hb : 0 < lastBalance l.Transactions - trd.Amount) :
    s.Debit id trd uuid now =
      (.ok ⟨uuid, now, trd.Typ, trd.Description, trd.Amount,
          round (lastBalance l.Transactions - trd.Amount) 4⟩,
        ⟨assign s.ledgers id (l.Transactions ++
          [⟨uuid, now, trd.Typ, trd.Description, trd.Amount,
            round (lastBalance l.Transactions - trd.Amount) 4⟩])⟩) := by
  unfold store.Debit
  rw [getLedgerWithBalance_of_lookup s id l h]
  simp only [if_neg (not_le.2 hb)]

theorem Debit_of_lookup_nonpos (s : store) (id : String) (l : Ledger)
    (trd : TransactionRequestDTO) (uuid : String) (now : Int)
    (h : lookup s.ledgers id = some l) (hb : lastBalance l.Transactions - trd.Amount ≤ 0) :
    s.Debit id trd uuid now = (.error .InsufficientFunds, s) := by
  unfold store.Debit
  rw [getLedgerWithBalance_of_lookup s id l h]
  simp only [if_pos hb]

theorem Debit_of_lookup_none (s : store) (id : String) (trd : TransactionRequestDTO)
    (uuid : String) (now : Int) (h : lookup s.ledgers id = none) :
    s.Debit id trd uuid now = (.error .LedgerNotFound, s) := by
  unfold store.Debit
  rw [getLedgerWithBalance_of_lookup_none s id h]

theorem GetLastBalance_of_lookup (s : store) (id : String) (l : Ledger)
    (h : lookup s.ledgers id = some l) :
    s.GetLastBalance id = (.ok (lastBalance l.Transactions), s) := by
  unfold store.GetLastBalance
  rw [getLedgerWithBalance_of_lookup s id l h]

theorem GetLastBalance_of_lookup_none (s : store) (id : String)
    (h : lookup s.ledgers id = none) :
    s.GetLastBalance id = (.error .LedgerNotFound, s) := by
  unfold store.GetLastBalance
  rw [getLedgerWithBalance_of_lookup_none s id h]

theorem GetTransactionHistory_of_lookup (s : store) (id : String) (l : Ledger)
    (h : lookup s.ledgers id = some l) :
    s.GetTransactionHistory id = (.ok l.Transactions, s) := by
  unfold store.GetTransactionHistory
  rw [getLedgerWithBalance_of_lookup s id l h]

theorem GetTransactionHistory_of_lookup_none (s : store) (id : String)
    (h : lookup s.ledgers id = none) :
    s.GetTransactionHistory id = (.error .LedgerNotFound, s) := by
  unfold store.GetTransactionHistory
  rw [getLedgerWithBalance_of_lookup_none s id h]

theorem Credit_ok_inv (s : store) (id : String) (trd : TransactionRequestDTO)
    (uuid : String) (now : Int) (tx : Transaction)
    (hok : (s.Credit id trd uuid now).1 = .ok tx) :
    ∃ l, lookup s.ledgers id = some l ∧
      tx = ⟨uuid, now, trd.Typ, trd.Description, trd.Amount,
        round (lastBalance l.Transactions + trd.Amount) 4⟩ ∧
      (s.Credit id trd uuid now).2 = ⟨assign s.ledgers id (l.Transactions ++ [tx])⟩ := by
  cases hl : lookup s.ledgers id with
  | none =>
    rw [Credit_of_lookup_none s id trd uuid now hl] at hok
    cases hok
  | some l =>
    rw [Credit_of_lookup s id l trd uuid now hl] at hok ⊢
    cases hok
    exact ⟨l, rfl, rfl, rfl⟩

theorem Debit_ok_inv (s : store) (id : String) (trd : TransactionRequestDTO)
    (uuid : String) (now : Int) (tx : Transaction)
    (hok : (s.Debit id trd uuid now).1 = .ok tx) :
    ∃ l, lookup s.ledgers id = some l ∧ 0 < lastBalance l.Transactions - trd.Amount ∧
      tx = ⟨uuid, now, trd.Typ, trd.Description, trd.Amount,
        round (lastBalance l.Transactions - trd.Amount) 4⟩ ∧
      (s.Debit id trd uuid now).2 = ⟨assign s.ledgers id (l.Transactions ++ [tx])⟩ := by
  cases hl : lookup s.ledgers id with
  | none =>
    rw [Debit_of_lookup_none s id trd uuid now hl] at hok
    cases hok
  | some l =>
    by_cases hb : lastBalance l.Transactions - trd.Amount ≤ 0
    · rw [Debit_of_lookup_nonpos s id l trd uuid now hl hb] at hok
      cases hok
    · rw [Debit_of_lookup_pos s id l trd uuid now hl (not_le.1 hb)] at hok ⊢
      cases hok
      exact ⟨l, rfl, not_le.1 hb, rfl, rfl⟩

/-! ## Insufficient funds -/

/-- C1: on a registered ledger, Debit fails with InsufficientFunds exactly when
lastBalance - amount <= 0 (lastBalance being 0 for an empty ledger and the last
transaction's runningBalance otherwise), and when it fails this way the store
after the call is the store before it. -/
theorem Debit_insufficientFunds_iff (s : store) (ledgerId : String) (l : Ledger)
    (trd : TransactionRequestDTO) (uuid : String) (now : Int)
    (h : lookup s.ledgers ledgerId = some l) :
    ((s.Debit ledgerId trd uuid now).1 = .error .InsufficientFunds ↔
        lastBalance l.Transactions - trd.Amount ≤ 0) ∧
    ((s.Debit ledgerId trd uuid now).1 = .error .InsufficientFunds →
        (s.Debit ledgerId trd uuid now).2 = s) := by
  by_cases hb : lastBalance l.Transactions - trd.Amount ≤ 0
  · rw [Debit_of_lookup_nonpos s ledgerId l trd uuid now h hb]
    exact ⟨⟨fun _ => hb, fun _ => rfl⟩, fun _ => rfl⟩
  · rw [Debit_of_lookup_pos s ledgerId l trd uuid now h (not_le.1 hb)]
    refine ⟨⟨fun e => ?_, fun e => absurd e hb⟩, fun e => ?_⟩ <;> cases e

/-- Witness for C1: the test fixture `ledger5` (balance 50) debited 75, and the
boundary case of the same ledger debited exactly 50. -/
theorem Debit_insufficientFunds_iff_witness :
    lookup (storeOf "ledger5" [txOld 50 50]).ledgers "ledger5"
        = some ⟨"ledger5", "cash", [txOld 50 50]⟩ ∧
    ((storeOf "ledger5" [txOld 50 50]).Debit "ledger5" (debitReq "withdrawal" 50) "123" 0
        = (.error .InsufficientFunds, storeOf "ledger5" [txOld 50 50])) := by
  have key := Debit_insufficientFunds_iff (storeOf "ledger5" [txOld 50 50]) "ledger5"
    ⟨"ledger5", "cash", [txOld 50 50]⟩ (debitReq "withdrawal" 50) "123" 0 rfl
  have hfail := key.1.2 (by norm_num [lastBalance, txOld, debitReq])
  exact ⟨rfl, Prod.ext hfail (key.2 hfail)⟩

/-! ## A successful mutation appends exactly one transaction -/

/-- C2: if Credit (respectively Debit) succeeds, the ledger afterwards is the
ledger before with the returned transaction appended as its last element, the
returned transaction carries the request's description and unrounded amount
and the generated id, and its runningBalance is round4(lastBalance + amount)
for Credit and round4(lastBalance - amount) for Debit. -/
theorem Credit_Debit_appends_one (s : store) (ledgerId : String) (trd : TransactionRequestDTO)
    (uuid : String) (now : Int) (tx : Transaction) :
    ((s.Credit ledgerId trd uuid now).1 = .ok tx →
      ∃ l, lookup s.ledgers ledgerId = some l ∧
        lookup (s.Credit ledgerId trd uuid now).2.ledgers ledgerId
          = some { l with Transactions := l.Transactions ++ [tx] } ∧
        ((s.Credit ledgerId trd uuid now).2.GetTransactionHistory ledgerId).1
          = .ok (l.Transactions ++ [tx]) ∧
        tx.ID = uuid ∧ tx.Description = trd.Description ∧ tx.Amount = trd.Amount ∧
        tx.RunningBalance = round (lastBalance l.Transactions + trd.Amount) 4) ∧
    ((s.Debit ledgerId trd uuid now).1 = .ok tx →
      ∃ l, lookup s.ledgers ledgerId = some l ∧
        lookup (s.Debit ledgerId trd uuid now).2.ledgers ledgerId
          = some { l with Transactions := l.Transactions ++ [tx] } ∧
        ((s.Debit ledgerId trd uuid now).2.GetTransactionHistory ledgerId).1
          = .ok (l.Transactions ++ [tx]) ∧
        tx.ID = uuid ∧ tx.Description = trd.Description ∧ tx.Amount = trd.Amount ∧
        tx.RunningBalance = round (lastBalance l.Transactions - trd.Amount) 4) := by
  constructor
  · intro hok
    obtain ⟨l, hl, htx, hpost⟩ := Credit_ok_inv s ledgerId trd uuid now tx hok
    have hlk := lookup_assign_same s.ledgers ledgerId l (l.Transactions ++ [tx]) hl
    rw [hpost]
    refine ⟨l, hl, hlk, ?_, ?_⟩
    · rw [GetTransactionHistory_of_lookup _ ledgerId _ hlk]
    · rw [htx]; exact ⟨rfl, rfl, rfl, rfl⟩
  · intro hok
    obtain ⟨l, hl, _, htx, hpost⟩ := Debit_ok_inv s ledgerId trd uuid now tx hok
    have hlk := lookup_assign_same s.ledgers ledgerId l (l.Transactions ++ [tx]) hl
    rw [hpost]
    refine ⟨l, hl, hlk, ?_, ?_⟩
    · rw [GetTransactionHistory_of_lookup _ ledgerId _ hlk]
    · rw [htx]; exact ⟨rfl, rfl, rfl, rfl⟩

/-- Witness for C2: the fixtures `ledger2` (50, credited 75) and `ledger3`
(200, debited 75) of the tests; both calls succeed with running balance 125. -/
theorem Credit_Debit_appends_one_witness :
    (∃ l, lookup (storeOf "ledger2" [txOld 50 50]).ledgers "ledger2" = some l ∧
      lookup ((storeOf "ledger2" [txOld 50 50]).Credit "ledger2"
          (creditReq "additional deposit" 75) "123" 7).2.ledgers "ledger2"
        = some { l with Transactions := l.Transactions ++
            [⟨"123", 7, Credit, "additional deposit", 75, 125⟩] }) ∧
    (∃ l, lookup (storeOf "ledger3" [txOld 200 200]).ledgers "ledger3" = some l ∧
      lookup ((storeOf "ledger3" [txOld 200 200]).Debit "ledger3"
          (debitReq "withdrawal" 75) "123" 7).2.ledgers "ledger3"
        = some { l with Transactions := l.Transactions ++
            [⟨"123", 7, Debit, "withdrawal", 75, 125⟩] }) := by
  constructor
  · obtain ⟨l, h1, h2, _⟩ := (Credit_Debit_appends_one (storeOf "ledger2" [txOld 50 50])
      "ledger2" (creditReq "additional deposit" 75) "123" 7
      ⟨"123", 7, Credit, "additional deposit", 75, 125⟩).1
      (by norm_num [store.Credit, store.getLedgerWithBalance, lookup, storeOf, round,
        mathRound, txOld, creditReq])
    exact ⟨l, h1, h2⟩
  · obtain ⟨l, h1, h2, _⟩ := (Credit_Debit_appends_one (storeOf "ledger3" [txOld 200 200])
      "ledger3" (debitReq "withdrawal" 75) "123" 7
      ⟨"123", 7, Debit, "withdrawal", 75, 125⟩).2
      (by norm_num [store.Debit, store.getLedgerWithBalance, lookup, storeOf, round,
        mathRound, txOld, debitReq])
    exact ⟨l, h1, h2⟩

/-! ## Unknown ledgers -/

/-- C3: for an identifier that is not a key of the ledger map (the empty
string included) each of Credit, Debit, GetLastBalance and
GetTransactionHistory fails with LedgerNotFound and returns the store it was
given; for a key of the map, Credit, GetLastBalance and GetTransactionHistory
succeed whatever the request. -/
theorem LedgerNotFound_iff_unregistered (s : store) (ledgerId : String) :
    (ledgerId ∉ s.ledgers.map Prod.fst →
      (∀ trd uuid now, s.Credit ledgerId trd uuid now = (.error .LedgerNotFound, s)) ∧
      (∀ trd uuid now, s.Debit ledgerId trd uuid now = (.error .LedgerNotFound, s)) ∧
      s.GetLastBalance ledgerId = (.error .LedgerNotFound, s) ∧
      s.GetTransactionHistory ledgerId = (.error .LedgerNotFound, s)) ∧
    (ledgerId ∈ s.ledgers.map Prod.fst →
      (∀ trd uuid now, ∃ tx, (s.Credit ledgerId trd uuid now).1 = .ok tx) ∧
      (∃ b, (s.GetLastBalance ledgerId).1 = .ok b) ∧
      (∃ h, (s.GetTransactionHistory ledgerId).1 = .ok h)) := by
  constructor
  · intro hnot
    have hl := (lookup_eq_none_iff s.ledgers ledgerId).2 hnot
    exact ⟨fun trd uuid now => Credit_of_lookup_none s ledgerId trd uuid now hl,
      fun trd uuid now => Debit_of_lookup_none s ledgerId trd uuid now hl,
      GetLastBalance_of_lookup_none s ledgerId hl,
      GetTransactionHistory_of_lookup_none s ledgerId hl⟩
  · intro hmem
    obtain ⟨l, hl⟩ := lookup_isSome_of_mem s.ledgers ledgerId hmem
    refine ⟨fun trd uuid now => ?_, ?_, ?_⟩
    · rw [Credit_of_lookup s ledgerId l trd uuid now hl]
      exact ⟨_, rfl⟩
    · rw [GetLastBalance_of_lookup s ledgerId l hl]
      exact ⟨_, rfl⟩
    · rw [GetTransactionHistory_of_lookup s ledgerId l hl]
      exact ⟨_, rfl⟩

/-- Witness for C3: the empty identifier on the store holding only `ledger1`
is rejected by Credit and Debit, and `ledger1` itself can be read. -/
theorem LedgerNotFound_iff_unregistered_witness :
    ((storeOf "ledger1" []).Credit "" (creditReq "deposit with empty ledgerId" 100) "123" 0
        = (.error .LedgerNotFound, storeOf "ledger1" [])) ∧
    ((storeOf "ledger1" []).Debit "" (debitReq "withdrawal" 50) "123" 0
        = (.error .LedgerNotFound, storeOf "ledger1" [])) ∧
    (∃ b, ((storeOf "ledger1" []).GetLastBalance "ledger1").1 = .ok b) :=
  ⟨((LedgerNotFound_iff_unregistered (storeOf "ledger1" []) "").1
      (by simp [storeOf])).1 _ _ _,
    ((LedgerNotFound_iff_unregistered (storeOf "ledger1" []) "").1
      (by simp [storeOf])).2.1 _ _ _,
    ((LedgerNotFound_iff_unregistered (storeOf "ledger1" []) "ledger1").2
      (by simp [storeOf])).2.1⟩

/-! ## The current balance -/

/-- C4: on a registered ledger GetLastBalance succeeds, returning 0 when the
transaction sequence is empty and the runningBalance of its last element
otherwise; right after a successful Credit or Debit it returns the
runningBalance of the transaction that call returned. -/
theorem GetLastBalance_is_last_runningBalance (s : store) (ledgerId : String) (l : Ledger)
    (h : lookup s.ledgers ledgerId = some l) :
    (l.Transactions = [] → s.GetLastBalance ledgerId = (.ok 0, s)) ∧
    (∀ init t, l.Transactions = init ++ [t] →
      s.GetLastBalance ledgerId = (.ok t.RunningBalance, s)) ∧
    (∀ trd uuid now tx, (s.Credit ledgerId trd uuid now).1 = .ok tx →
      ((s.Credit ledgerId trd uuid now).2.GetLastBalance ledgerId).1 = .ok tx.RunningBalance) ∧
    (∀ trd uuid now tx, (s.Debit ledgerId trd uuid now).1 = .ok tx →
      ((s.Debit ledgerId trd uuid now).2.GetLastBalance ledgerId).1 = .ok tx.RunningBalance) := by
  refine ⟨fun he => ?_, fun init t he => ?_, fun trd uuid now tx hok => ?_,
    fun trd uuid now tx hok => ?_⟩
  · rw [GetLastBalance_of_lookup s ledgerId l h, he]; rfl
  · rw [GetLastBalance_of_lookup s ledgerId l h, he, lastBalance_append_singleton]
  · obtain ⟨l2, hl2, _, hpost⟩ := Credit_ok_inv s ledgerId trd uuid now tx hok
    rw [hpost, GetLastBalance_of_lookup _ ledgerId _
      (lookup_assign_same s.ledgers ledgerId l2 (l2.Transactions ++ [tx]) hl2)]
    simp only [lastBalance_append_singleton]
  · obtain ⟨l2, hl2, _, _, hpost⟩ := Debit_ok_inv s ledgerId trd uuid now tx hok
    rw [hpost, GetLastBalance_of_lookup _ ledgerId _
      (lookup_assign_same s.ledgers ledgerId l2 (l2.Transactions ++ [tx]) hl2)]
    simp only [lastBalance_append_singleton]

/-- Witness for C4: the new ledger `ledger1` has balance 0, and balance 100
after being credited 100. -/
theorem GetLastBalance_is_last_runningBalance_witness :
    (storeOf "ledger1" []).GetLastBalance "ledger1" = (.ok 0, storeOf "ledger1" []) ∧
    (((storeOf "ledger1" []).Credit "ledger1" (creditReq "initial deposit" 100) "123"
        0).2.GetLastBalance "ledger1").1 = .ok 100 :=
  ⟨(GetLastBalance_is_last_runningBalance (storeOf "ledger1" []) "ledger1"
      ⟨"ledger1", "cash", []⟩ rfl).1 rfl,
    (GetLastBalance_is_last_runningBalance (storeOf "ledger1" []) "ledger1"
      ⟨"ledger1", "cash", []⟩ rfl).2.2.1 (creditReq "initial deposit" 100) "123" 0
      ⟨"123", 0, Credit, "initial deposit", 100, 100⟩
      (by norm_num [store.Credit, store.getLedgerWithBalance, lookup, storeOf, round,
        mathRound, creditReq])⟩

/-! ## Runs of calls -/

theorem call_error_store (s : store) (c : Call) (e : Error)
    (h : (s.call c).1 = .error e) : (s.call c).2 = s := by
  unfold store.call at h ⊢
  cases hm : c.method with
  | credit =>
    rw [hm] at h
    simp only at h ⊢
    cases hl : lookup s.ledgers c.ledgerId with
    | none => rw [Credit_of_lookup_none s _ _ _ _ hl]
    | some l => rw [Credit_of_lookup s _ l _ _ _ hl] at h; cases h
  | debit =>
    rw [hm] at h
    simp only at h ⊢
    cases hl : lookup s.ledgers c.ledgerId with
    | none => rw [Debit_of_lookup_none s _ _ _ _ hl]
    | some l =>
      by_cases hb : lastBalance l.Transactions - c.trd.Amount ≤ 0
      · rw [Debit_of_lookup_nonpos s _ l _ _ _ hl hb]
      · rw [Debit_of_lookup_pos s _ l _ _ _ hl (not_le.1 hb)] at h; cases h

theorem call_ok_store (s : store) (c : Call) (tx : Transaction)
    (h : (s.call c).1 = .ok tx) :
    ∃ l, lookup s.ledgers c.ledgerId = some l ∧
      (s.call c).2 = ⟨assign s.ledgers c.ledgerId (l.Transactions ++ [tx])⟩ ∧
      tx.Amount = c.trd.Amount ∧
      (c.method = .credit →
        tx.RunningBalance = round (lastBalance l.Transactions + c.trd.Amount) 4) ∧
      (c.method = .debit → 0 < lastBalance l.Transactions - c.trd.Amount ∧
        tx.RunningBalance = round (lastBalance l.Transactions - c.trd.Amount) 4) := by
  unfold store.call at h ⊢
  cases hm : c.method with
  | credit =>
    rw [hm] at h
    simp only at h ⊢
    obtain ⟨l, hl, htx, hpost⟩ := Credit_ok_inv s _ _ _ _ tx h
    refine ⟨l, hl, hpost, by rw [htx], fun _ => (by rw [htx]), fun hc => (by cases hc)⟩
  | debit =>
    rw [hm] at h
    simp only at h ⊢
    obtain ⟨l, hl, hb, htx, hpost⟩ := Debit_ok_inv s _ _ _ _ tx h
    refine ⟨l, hl, hpost, by rw [htx], fun hc => (by cases hc), fun _ => ⟨hb, by rw [htx]⟩⟩

theorem run_length (s : store) (cs : List Call) : (s.run cs).1.length = cs.length := by
  induction cs generalizing s with
  | nil => rfl
  | cons c cs ih => simp only [store.run, List.length_cons, ih]

theorem run_lookup (s : store) (id : String) (l : Ledger) (cs : List Call)
    (h : lookup s.ledgers id = some l) :
    lookup (s.run cs).2.ledgers id
      = some { l with Transactions := l.Transactions ++ appended id cs (s.run cs).1 } := by
  induction cs generalizing s l with
  | nil => simp [store.run, appended, h]
  | cons c cs ih =>
    simp only [store.run]
    cases hr : (s.call c).1 with
    | error e =>
      have hs := call_error_store s c e hr
      rw [hs]
      simpa [appended] using ih s l h
    | ok tx =>
      obtain ⟨l0, hl0, hpost, _⟩ := call_ok_store s c tx hr
      by_cases hid : c.ledgerId = id
      · have hll : l0 = l := by
          rw [hid, h] at hl0; exact (Option.some.inj hl0).symm
        subst hll
        have h2 : lookup (s.call c).2.ledgers id
            = some { l0 with Transactions := l0.Transactions ++ [tx] } := by
          rw [hpost, hid]
          exact lookup_assign_same s.ledgers id l0 _ h
        have := ih (s.call c).2 _ h2
        simpa [appended, hid] using this
      · have h2 : lookup (s.call c).2.ledgers id = some l := by
          rw [hpost, lookup_assign_other s.ledgers c.ledgerId id _ (fun e => hid e.symm)]
          exact h
        have := ih (s.call c).2 _ h2
        simpa [appended, hid] using this

/-! ## Append-only history -/

/-- C5: if GetTransactionHistory returns H for a ledger, then after any
sequence of Credit/Debit calls against the store it returns H followed by the
transactions returned by the successful calls on that ledger, in call order;
failed calls and calls on other ledgers contribute nothing. -/
theorem history_append_only (s : store) (ledgerId : String) (H : List Transaction)
    (cs : List Call) (h : (s.GetTransactionHistory ledgerId).1 = .ok H) :
    ((s.run cs).2.GetTransactionHistory ledgerId).1
      = .ok (H ++ appended ledgerId cs (s.run cs).1) := by
  cases hl : lookup s.ledgers ledgerId with
  | none =>
    rw [GetTransactionHistory_of_lookup_none s ledgerId hl] at h
    cases h
  | some l =>
    rw [GetTransactionHistory_of_lookup s ledgerId l hl] at h
    cases h
    rw [GetTransactionHistory_of_lookup _ ledgerId _ (run_lookup s ledgerId l cs hl)]

/-- Witness for C5: on `ledger3` (balance 200) a debit of 75, a debit of 500
(insufficient funds), a credit on an unknown ledger and a credit of 10 leave
the history with the old entry followed by the two successful transactions. -/
theorem history_append_only_witness :
    (((storeOf "ledger3" [txOld 200 200]).run
        [debitCall "ledger3" 75 "a", debitCall "ledger3" 500 "b", creditCall "nope" 1 "c",
          creditCall "ledger3" 10 "d"]).2.GetTransactionHistory "ledger3").1
      = .ok ([txOld 200 200] ++
          [⟨"a", 0, Debit, "withdrawal", 75, 125⟩, ⟨"d", 0, Credit, "deposit", 10, 135⟩]) := by
  have key := history_append_only (storeOf "ledger3" [txOld 200 200]) "ledger3"
    [txOld 200 200]
    [debitCall "ledger3" 75 "a", debitCall "ledger3" 500 "b", creditCall "nope" 1 "c",
      creditCall "ledger3" 10 "d"] rfl
  rw [key]
  norm_num [store.run, store.call, store.Credit, store.Debit, store.getLedgerWithBalance,
    lookup, assign, appended, storeOf, txOld, debitCall, creditCall, debitReq, creditReq,
    round, mathRound]

/-! ## Non-negative balances -/

theorem call_preserves_nonneg (s : store) (c : Call)
    (hinv : ∀ id l, lookup s.ledgers id = some l → 0 ≤ lastBalance l.Transactions)
    (hpos : 0 < c.trd.Amount) :
    (∀ id l, lookup (s.call c).2.ledgers id = some l → 0 ≤ lastBalance l.Transactions) ∧
    (∀ tx, (s.call c).1 = .ok tx → 0 ≤ tx.RunningBalance) := by
  cases hr : (s.call c).1 with
  | error e =>
    rw [call_error_store s c e hr]
    exact ⟨hinv, fun tx h => by cases h⟩
  | ok tx =>
    obtain ⟨l0, hl0, hpost, _, hcr, hdb⟩ := call_ok_store s c tx hr
    have hb0 := hinv _ _ hl0
    have htx : 0 ≤ tx.RunningBalance := by
      cases hm : c.method with
      | credit => rw [hcr hm]; exact round_four_nonneg _ (by linarith)
      | debit => rw [(hdb hm).2]; exact round_four_nonneg _ (le_of_lt (hdb hm).1)
    refine ⟨fun id l hl => ?_, fun tx2 h => by cases h; exact htx⟩
    rw [hpost] at hl
    by_cases hid : id = c.ledgerId
    · subst hid
      rw [lookup_assign_same s.ledgers _ l0 _ hl0] at hl
      cases hl
      simpa [lastBalance_append_singleton] using htx
    · rw [lookup_assign_other s.ledgers c.ledgerId id _ hid] at hl
      exact hinv _ _ hl

theorem run_preserves_nonneg (s : store) (cs : List Call)
    (hinv : ∀ id l, lookup s.ledgers id = some l → 0 ≤ lastBalance l.Transactions)
    (hpos : ∀ c ∈ cs, 0 < c.trd.Amount) :
    (∀ id l, lookup (s.run cs).2.ledgers id = some l → 0 ≤ lastBalance l.Transactions) ∧
    (∀ tx, Except.ok tx ∈ (s.run cs).1 → 0 ≤ tx.RunningBalance) := by
  induction cs generalizing s with
  | nil => exact ⟨hinv, fun tx h => by simp [store.run] at h⟩
  | cons c cs ih =>
    have hstep := call_preserves_nonneg s c hinv (hpos c (List.mem_cons_self c cs))
    have hrest := ih (s.call c).2 hstep.1 (fun d hd => hpos d (List.mem_cons_of_mem c hd))
    refine ⟨hrest.1, fun tx h => ?_⟩
    simp only [store.run, List.mem_cons] at h
    rcases h with h | h
    · exact hstep.2 tx h.symm
    · exact hrest.2 tx h

/-- C6: if every ledger's current balance (GetLastBalance) is >= 0 in the
initial store, then after any sequence of Credit and Debit calls whose requests
all have amount > 0 every ledger's current balance is still >= 0, and every
runningBalance appended along the way is >= 0. -/
theorem nonneg_balance_invariant (s : store) (cs : List Call)
    (hinit : ∀ id b, (s.GetLastBalance id).1 = .ok b → 0 ≤ b)
    (hpos : ∀ c ∈ cs, 0 < c.trd.Amount) :
    (∀ id b, ((s.run cs).2.GetLastBalance id).1 = .ok b → 0 ≤ b) ∧
    (∀ tx, Except.ok tx ∈ (s.run cs).1 → 0 ≤ tx.RunningBalance) := by
  have hinv : ∀ id l, lookup s.ledgers id = some l → 0 ≤ lastBalance l.Transactions := by
    intro id l hl
    apply hinit id
    rw [GetLastBalance_of_lookup s id l hl]
  have key := run_preserves_nonneg s cs hinv hpos
  refine ⟨fun id b hb => ?_, key.2⟩
  cases hl : lookup (s.run cs).2.ledgers id with
  | none =>
    rw [GetLastBalance_of_lookup_none _ id hl] at hb
    cases hb
  | some l =>
    rw [GetLastBalance_of_lookup _ id l hl] at hb
    cases hb
    exact key.1 id l hl

/-- Witness for C6: `ledger3` (balance 200) debited 75 and then credited 10:
every balance of the final store and both recorded running balances are >= 0. -/
theorem nonneg_balance_invariant_witness :
    (∀ id b, (((storeOf "ledger3" [txOld 200 200]).run
        [debitCall "ledger3" 75 "a", creditCall "ledger3" 10 "b"]).2.GetLastBalance id).1
          = .ok b → 0 ≤ b) ∧
    (∀ tx, Except.ok tx ∈ ((storeOf "ledger3" [txOld 200 200]).run
        [debitCall "ledger3" 75 "a", creditCall "ledger3" 10 "b"]).1 → 0 ≤ tx.RunningBalance) :=
  nonneg_balance_invariant (storeOf "ledger3" [txOld 200 200])
    [debitCall "ledger3" 75 "a", creditCall "ledger3" 10 "b"]
    (by
      intro id b h
      by_cases hid : "ledger3" = id
      · subst hid
        have : b = 200 := by
          simpa [store.GetLastBalance, store.getLedgerWithBalance, lookup, storeOf, txOld,
            eq_comm] using h
        rw [this]; norm_num
      · simp [store.GetLastBalance, store.getLedgerWithBalance, lookup, storeOf, hid] at h)
    (by
      intro c hc
      simp only [List.mem_cons, List.mem_singleton, List.not_mem_nil, or_false] at hc
      rcases hc with rfl | rfl <;> norm_num [debitCall, creditCall, debitReq, creditReq])

/-! ## The kind recorded on a transaction -/

/-- Counterexample to C7: Credit called with a payload of kind debit records a
transaction of kind debit (and raises the balance); Debit called with a payload
of kind credit records a transaction of kind credit. -/
theorem kind_follows_payload_counterexample :
    ((storeOf "ledger1" []).Credit "ledger1" (debitReq "deposit" 100) "123" 0).1
        = .ok ⟨"123", 0, Debit, "deposit", 100, 100⟩ ∧
    ((storeOf "ledger3" [txOld 200 200]).Debit "ledger3" (creditReq "withdrawal" 75) "123" 0).1
        = .ok ⟨"123", 0, Credit, "withdrawal", 75, 125⟩ ∧
    Debit ≠ Credit := by
  refine ⟨?_, ?_, by decide⟩
  · norm_num [store.Credit, store.getLedgerWithBalance, lookup, storeOf, round, mathRound,
      debitReq]
  · norm_num [store.Debit, store.getLedgerWithBalance, lookup, storeOf, round, mathRound,
      creditReq, txOld]

/-- C7 (amended): the transaction built and appended by a successful Credit or
Debit carries the kind of the request payload unchanged; so it has kind Credit
after Credit, and kind Debit after Debit, when the payload's kind matches the
operation invoked. -/
theorem kind_is_payload_kind (s : store) (ledgerId : String) (trd : TransactionRequestDTO)
    (uuid : String) (now : Int) (tx : Transaction) :
    ((s.Credit ledgerId trd uuid now).1 = .ok tx →
      tx.Typ = trd.Typ ∧ (trd.Typ = Credit → tx.Typ = Credit)) ∧
    ((s.Debit ledgerId trd uuid now).1 = .ok tx →
      tx.Typ = trd.Typ ∧ (trd.Typ = Debit → tx.Typ = Debit)) := by
  constructor
  · intro hok
    obtain ⟨l, _, htx, _⟩ := Credit_ok_inv s ledgerId trd uuid now tx hok
    have h : tx.Typ = trd.Typ := by rw [htx]
    exact ⟨h, fun hk => h.trans hk⟩
  · intro hok
    obtain ⟨l, _, _, htx, _⟩ := Debit_ok_inv s ledgerId trd uuid now tx hok
    have h : tx.Typ = trd.Typ := by rw [htx]
    exact ⟨h, fun hk => h.trans hk⟩

/-- Witness for C7 (amended): the fixtures `ledger2` credited and `ledger3`
debited with payloads of the matching kind. -/
theorem kind_is_payload_kind_witness :
    (⟨"123", 7, Credit, "additional deposit", 75, 125⟩ : Transaction).Typ = Credit ∧
    (⟨"123", 7, Debit, "withdrawal", 75, 125⟩ : Transaction).Typ = Debit :=
  ⟨((kind_is_payload_kind (storeOf "ledger2" [txOld 50 50]) "ledger2"
      (creditReq "additional deposit" 75) "123" 7
      ⟨"123", 7, Credit, "additional deposit", 75, 125⟩).1
      (by norm_num [store.Credit, store.getLedgerWithBalance, lookup, storeOf, round,
        mathRound, txOld, creditReq])).2 rfl,
    ((kind_is_payload_kind (storeOf "ledger3" [txOld 200 200]) "ledger3"
      (debitReq "withdrawal" 75) "123" 7
      ⟨"123", 7, Debit, "withdrawal", 75, 125⟩).2
      (by norm_num [store.Debit, store.getLedgerWithBalance, lookup, storeOf, round,
        mathRound, txOld, debitReq])).2 rfl⟩

/-! ## The balance a debit leaves -/

/-- Counterexample to C8: a ledger with balance 1 debited 0.99999 (> 0) passes
the funds check, since 1 - 0.99999 = 0.00001 > 0, and records the running
balance round4(0.00001) = 0; GetLastBalance afterwards returns 0. -/
theorem Debit_records_zero_counterexample :
    (0 : ℚ) < 99999 / 100000 ∧
    ((storeOf "ledger6" [txOld 1 1]).Debit "ledger6" (debitReq "withdrawal" (99999 / 100000))
        "123" 0).1
      = .ok ⟨"123", 0, Debit, "withdrawal", 99999 / 100000, 0⟩ ∧
    (((storeOf "ledger6" [txOld 1 1]).Debit "ledger6" (debitReq "withdrawal" (99999 / 100000))
        "123" 0).2.GetLastBalance "ledger6").1 = .ok 0 := by
  refine ⟨by norm_num, ?_, ?_⟩
  · norm_num [store.Debit, store.getLedgerWithBalance, lookup, storeOf, round, mathRound,
      debitReq, txOld]
  · norm_num [store.Debit, store.GetLastBalance, store.getLedgerWithBalance, lookup, assign,
      storeOf, round, mathRound, debitReq, txOld]

/-- C8 (amended): if Debit succeeds then the candidate balance
lastBalance - amount is strictly greater than 0, and the runningBalance it
records, which GetLastBalance returns afterwards, is round4(lastBalance -
amount), which is greater than or equal to 0 (and can be exactly 0). -/
theorem Debit_leaves_nonneg (s : store) (ledgerId : String) (trd : TransactionRequestDTO)
    (uuid : String) (now : Int) (tx : Transaction)
    (hok : (s.Debit ledgerId trd uuid now).1 = .ok tx) :
    ∃ l, lookup s.ledgers ledgerId = some l ∧
      0 < lastBalance l.Transactions - trd.Amount ∧
      tx.RunningBalance = round (lastBalance l.Transactions - trd.Amount) 4 ∧
      0 ≤ tx.RunningBalance ∧
      ((s.Debit ledgerId trd uuid now).2.GetLastBalance ledgerId).1 = .ok tx.RunningBalance := by
  obtain ⟨l, hl, hb, htx, hpost⟩ := Debit_ok_inv s ledgerId trd uuid now tx hok
  have hrb : tx.RunningBalance = round (lastBalance l.Transactions - trd.Amount) 4 := by
    rw [htx]
  refine ⟨l, hl, hb, hrb, ?_, ?_⟩
  · rw [hrb]; exact round_four_nonneg _ (le_of_lt hb)
  · rw [hpost, GetLastBalance_of_lookup _ ledgerId _
      (lookup_assign_same s.ledgers ledgerId l (l.Transactions ++ [tx]) hl)]
    simp only [lastBalance_append_singleton]

/-- Witness for C8 (amended): `ledger3` (balance 200) debited 75 leaves 125. -/
theorem Debit_leaves_nonneg_witness :
    ∃ l, lookup (storeOf "ledger3" [txOld 200 200]).ledgers "ledger3" = some l ∧
      0 < lastBalance l.Transactions - (debitReq "withdrawal" 75).Amount ∧
      (125 : ℚ) = round (lastBalance l.Transactions - (debitReq "withdrawal" 75).Amount) 4 ∧
      (0 : ℚ) ≤ 125 ∧
      (((storeOf "ledger3" [txOld 200 200]).Debit "ledger3" (debitReq "withdrawal" 75) "123"
        7).2.GetLastBalance "ledger3").1 = .ok 125 :=
  Debit_leaves_nonneg (storeOf "ledger3" [txOld 200 200]) "ledger3"
    (debitReq "withdrawal" 75) "123" 7 ⟨"123", 7, Debit, "withdrawal", 75, 125⟩
    (by norm_num [store.Debit, store.getLedgerWithBalance, lookup, storeOf, round,
      mathRound, txOld, debitReq])

/-! ## Every mutation is applied once -/

theorem call_ok_recorded (s : store) (c : Call) (tx : Transaction) (l : Ledger)
    (hl : lookup s.ledgers c.ledgerId = some l) (h : (s.call c).1 = .ok tx) :
    tx.RunningBalance = recorded (lastBalance l.Transactions) c := by
  obtain ⟨l0, hl0, _, _, hcr, hdb⟩ := call_ok_store s c tx h
  rw [hl] at hl0
  cases hl0
  unfold recorded
  cases hm : c.method with
  | credit => exact hcr hm
  | debit => exact (hdb hm).2

theorem run_replay (s : store) (id : String) (l : Ledger) (cs : List Call)
    (hl : lookup s.ledgers id = some l) (hid : ∀ c ∈ cs, c.ledgerId = id)
    (hok : ∀ r ∈ (s.run cs).1, ∃ tx, r = Except.ok tx) :
    ∃ l2, lookup (s.run cs).2.ledgers id = some l2 ∧
      l2.Transactions.length = l.Transactions.length + cs.length ∧
      lastBalance l2.Transactions = replay (lastBalance l.Transactions) cs := by
  induction cs generalizing s l with
  | nil => exact ⟨l, hl, rfl, rfl⟩
  | cons c cs ih =>
    have hcid : c.ledgerId = id := hid c (List.mem_cons_self c cs)
    obtain ⟨tx, hr⟩ := hok (s.call c).1 (by simp [store.run])
    obtain ⟨l0, hl0, hpost, _⟩ := call_ok_store s c tx hr
    rw [hcid] at hl0 hpost
    rw [hl] at hl0
    cases hl0
    have hrb := call_ok_recorded s c tx l (by rw [hcid]; exact hl) hr
    have h1 : lookup (s.call c).2.ledgers id
        = some { l with Transactions := l.Transactions ++ [tx] } := by
      rw [hpost]; exact lookup_assign_same s.ledgers id l _ hl
    obtain ⟨l2, hl2, hlen, hbal⟩ := ih (s.call c).2 _ h1
      (fun d hd => hid d (List.mem_cons_of_mem c hd))
      (fun r hr2 => hok r (by simp only [store.run, List.mem_cons]; exact Or.inr hr2))
    simp only [lastBalance_append_singleton, List.length_append, List.length_singleton]
      at hlen hbal
    refine ⟨l2, by simpa [store.run] using hl2, ?_, ?_⟩
    · simp only [List.length_cons]; omega
    · rw [hbal, hrb]; rfl

/-- Counterexample to C9: `ledger2` (balance 50) credited 0.00004 records the
running balance round4(50.00004) = 50, so after this one successful mutation
the final balance 50 differs from the initial balance plus the credited amount. -/
theorem no_lost_update_counterexample :
    ((storeOf "ledger2" [txOld 50 50]).GetLastBalance "ledger2").1 = .ok 50 ∧
    ((storeOf "ledger2" [txOld 50 50]).run [creditCall "ledger2" (1 / 25000) "a"]).1
      = [.ok ⟨"a", 0, Credit, "deposit", 1 / 25000, 50⟩] ∧
    (((storeOf "ledger2" [txOld 50 50]).run
      [creditCall "ledger2" (1 / 25000) "a"]).2.GetLastBalance "ledger2").1 = .ok 50 ∧
    (50 : ℚ) ≠ 50 + net [creditCall "ledger2" (1 / 25000) "a"] := by
  refine ⟨?_, ?_, ?_, ?_⟩
  · norm_num [store.GetLastBalance, store.getLedgerWithBalance, lookup, storeOf, txOld]
  · norm_num [store.run, store.call, store.Credit, store.getLedgerWithBalance, lookup,
      storeOf, txOld, creditCall, creditReq, round, mathRound]
  · norm_num [store.run, store.call, store.Credit, store.GetLastBalance,
      store.getLedgerWithBalance, lookup, assign, storeOf, txOld, creditCall, creditReq,
      round, mathRound]
  · norm_num [net, signedAmount, creditCall, creditReq]

/-- C9 (amended): for a ledger with initial balance b0 and history H, after a
run of N calls against it that all succeed, the history has gained exactly N
entries and every call has been applied exactly once, in call order: the final
balance is b0 carried through round4(balance + amount) for each Credit and
round4(balance - amount) for each Debit. -/
theorem no_lost_update_replay (s : store) (ledgerId : String) (b0 : ℚ)
    (H : List Transaction) (cs : List Call)
    (hb : (s.GetLastBalance ledgerId).1 = .ok b0)
    (hH : (s.GetTransactionHistory ledgerId).1 = .ok H)
    (hid : ∀ c ∈ cs, c.ledgerId = ledgerId)
    (hok : ∀ r ∈ (s.run cs).1, ∃ tx, r = Except.ok tx) :
    ∃ b H2, ((s.run cs).2.GetLastBalance ledgerId).1 = .ok b ∧
      ((s.run cs).2.GetTransactionHistory ledgerId).1 = .ok H2 ∧
      H2.length = H.length + cs.length ∧
      b = replay b0 cs := by
  cases hl : lookup s.ledgers ledgerId with
  | none =>
    rw [GetLastBalance_of_lookup_none s ledgerId hl] at hb
    cases hb
  | some l =>
    rw [GetLastBalance_of_lookup s ledgerId l hl] at hb
    rw [GetTransactionHistory_of_lookup s ledgerId l hl] at hH
    cases hb
    cases hH
    obtain ⟨l2, hl2, hlen, hbal⟩ := run_replay s ledgerId l cs hl hid hok
    refine ⟨lastBalance l2.Transactions, l2.Transactions, ?_, ?_, hlen, hbal⟩
    · rw [GetLastBalance_of_lookup _ ledgerId l2 hl2]
    · rw [GetTransactionHistory_of_lookup _ ledgerId l2 hl2]

/-- Witness for C9 (amended): `ledger3` (balance 200) debited 75 and credited
10, both calls succeeding. -/
theorem no_lost_update_replay_witness :
    ∃ b H2, (((storeOf "ledger3" [txOld 200 200]).run
          [debitCall "ledger3" 75 "a", creditCall "ledger3" 10 "b"]).2.GetLastBalance
          "ledger3").1 = .ok b ∧
      (((storeOf "ledger3" [txOld 200 200]).run
          [debitCall "ledger3" 75 "a", creditCall "ledger3" 10 "b"]).2.GetTransactionHistory
          "ledger3").1 = .ok H2 ∧
      H2.length = [txOld 200 200].length
        + [debitCall "ledger3" 75 "a", creditCall "ledger3" 10 "b"].length ∧
      b = replay 200 [debitCall "ledger3" 75 "a", creditCall "ledger3" 10 "b"] :=
  no_lost_update_replay (storeOf "ledger3" [txOld 200 200]) "ledger3" 200
    [txOld 200 200] [debitCall "ledger3" 75 "a", creditCall "ledger3" 10 "b"]
    (by norm_num [store.GetLastBalance, store.getLedgerWithBalance, lookup, storeOf, txOld])
    (by norm_num [store.GetTransactionHistory, store.getLedgerWithBalance, lookup, storeOf])
    (by
      intro c hc
      simp only [List.mem_cons, List.mem_singleton, List.not_mem_nil, or_false] at hc
      rcases hc with rfl | rfl <;> rfl)
    (by
      intro r hr
      have hrun : ((storeOf "ledger3" [txOld 200 200]).run
          [debitCall "ledger3" 75 "a", creditCall "ledger3" 10 "b"]).1
          = [.ok ⟨"a", 0, Debit, "withdrawal", 75, 125⟩,
             .ok ⟨"b", 0, Credit, "deposit", 10, 135⟩] := by
        norm_num [store.run, store.call, store.Credit, store.Debit,
          store.getLedgerWithBalance, lookup, assign, storeOf, txOld, debitCall, creditCall,
          debitReq, creditReq, round, mathRound]
      rw [hrun] at hr
      simp only [List.mem_cons, List.mem_singleton, List.not_mem_nil, or_false] at hr
      rcases hr with rfl | rfl <;> exact ⟨_, rfl⟩)

/-! ## Rounding to four decimal places -/

/-- C10: round(v, 4) rounds half away from zero at 4 decimal places: the
result is an integer multiple of 0.0001 within 0.00005 of v, a value exactly
halfway between two multiples goes to the one farther from zero, rounding is
idempotent; a ledger with balance 33.335 credited 0.0001 records 33.3351, a new
ledger credited 100 records 100 and a balance of 50 credited 75 records 125. -/
theorem round_half_away_from_zero (v : ℚ) :
    (∃ k : ℤ, round v 4 = (k : ℚ) / 10000) ∧
    |round v 4 - v| ≤ 1 / 20000 ∧
    (∀ k : ℤ, round ((2 * (k : ℚ) + 1) / 20000) 4
        = (if 0 ≤ k then ((k : ℚ) + 1) / 10000 else (k : ℚ) / 10000) ∧
      |round ((2 * (k : ℚ) + 1) / 20000) 4| = |(2 * (k : ℚ) + 1) / 20000| + 1 / 20000) ∧
    round (round v 4) 4 = round v 4 ∧
    ((storeOf "ledger7" [txOld (33335 / 1000) (33335 / 1000)]).Credit "ledger7"
        (creditReq "deposit" (1 / 10000)) "123" 0).1
      = .ok ⟨"123", 0, Credit, "deposit", 1 / 10000, 333351 / 10000⟩ ∧
    ((storeOf "ledger1" []).Credit "ledger1" (creditReq "initial deposit" 100) "123" 0).1
      = .ok ⟨"123", 0, Credit, "initial deposit", 100, 100⟩ ∧
    ((storeOf "ledger2" [txOld 50 50]).Credit "ledger2" (creditReq "additional deposit" 75)
        "123" 0).1
      = .ok ⟨"123", 0, Credit, "additional deposit", 75, 125⟩ := by
  refine ⟨⟨mathRound (v * 10000), round_four v⟩, round_four_sub_le v, fun k => ?_,
    round_four_idem v, ?_, ?_, ?_⟩
  · refine ⟨round_four_half k, ?_⟩
    rw [round_four_half]
    by_cases hk : 0 ≤ k
    · have hq : (0 : ℚ) ≤ k := by exact_mod_cast hk
      rw [if_pos hk, abs_of_nonneg (by positivity), abs_of_nonneg (by positivity)]
      ring
    · have hk1 : k ≤ -1 := by omega
      have hq : (k : ℚ) ≤ -1 := by exact_mod_cast hk1
      rw [if_neg hk, abs_of_nonpos (by linarith), abs_of_nonpos (by linarith)]
      ring
  · norm_num [store.Credit, store.getLedgerWithBalance, lookup, storeOf, round, mathRound,
      creditReq, txOld]
  · norm_num [store.Credit, store.getLedgerWithBalance, lookup, storeOf, round, mathRound,
      creditReq]
  · norm_num [store.Credit, store.getLedgerWithBalance, lookup, storeOf, round, mathRound,
      creditReq, txOld]

/-! ## The running-balance chain is preserved -/

theorem prevBalance_cons_succ (a : Transaction) (r : List Transaction) (j : ℕ) :
    prevBalance (a :: r) (j + 1)
      = match j with
        | 0 => a.RunningBalance
        | k + 1 => prevBalance r (k + 1) := by
  cases j with
  | zero => simp [prevBalance]
  | succ k => simp [prevBalance]

theorem chain_iff_index (p : ℚ) (txs : List Transaction) :
    chain p txs ↔ (∀ t, txs.get? 0 = some t → follows p t) ∧
      (∀ j t, txs.get? (j + 1) = some t → follows (prevBalance txs (j + 1)) t) := by
  induction txs generalizing p with
  | nil => simp [chain]
  | cons a r ih =>
    simp only [chain]
    rw [ih a.RunningBalance]
    constructor
    · rintro ⟨h0, hr0, hrest⟩
      refine ⟨fun t ht => ?_, fun j t hj => ?_⟩
      · simp only [List.get?_cons_zero, Option.some.injEq] at ht
        subst ht; exact h0
      · simp only [List.get?_cons_succ] at hj
        rw [prevBalance_cons_succ]
        cases j with
        | zero => exact hr0 t hj
        | succ k => exact hrest k t hj
    · rintro ⟨h0, hrest⟩
      refine ⟨h0 a (by simp), fun t ht => ?_, fun j t hj => ?_⟩
      · have := hrest 0 t (by simpa using ht)
        rw [prevBalance_cons_succ] at this
        exact this
      · have := hrest (j + 1) t (by simpa using hj)
        rw [prevBalance_cons_succ] at this
        exact this

theorem chained_iff_chain (txs : List Transaction) : chained txs ↔ chain 0 txs := by
  rw [chain_iff_index]
  unfold chained
  constructor
  · intro h
    exact ⟨fun t ht => h 0 t ht, fun j t hj => h (j + 1) t hj⟩
  · rintro ⟨h0, hrest⟩ i t hi
    cases i with
    | zero => exact h0 t hi
    | succ j => exact hrest j t hi

theorem lastBalance_cons_cons (a b : Transaction) (r : List Transaction) :
    lastBalance (a :: b :: r) = lastBalance (b :: r) := rfl

theorem chain_append (p : ℚ) (txs : List Transaction) (t : Transaction)
    (h : chain p txs) (hnil : txs = [] → follows p t)
    (hcons : txs ≠ [] → follows (lastBalance txs) t) : chain p (txs ++ [t]) := by
  induction txs generalizing p with
  | nil => exact ⟨hnil rfl, trivial⟩
  | cons a r ih =>
    obtain ⟨ha, hr⟩ := h
    refine ⟨ha, ih a.RunningBalance hr (fun hre => ?_) (fun hre => ?_)⟩
    · subst hre
      exact hcons (by simp)
    · have := hcons (by simp)
      cases r with
      | nil => exact absurd rfl hre
      | cons b r2 => exact this

theorem chain_zero_append (txs : List Transaction) (t : Transaction)
    (h : chain 0 txs) (ht : follows (lastBalance txs) t) : chain 0 (txs ++ [t]) :=
  chain_append 0 txs t h (fun he => by subst he; exact ht) (fun _ => ht)

theorem Credit_ne_Debit : Credit ≠ Debit := by decide

theorem call_ok_follows (s : store) (c : Call) (tx : Transaction) (l : Ledger)
    (hl : lookup s.ledgers c.ledgerId = some l) (h : (s.call c).1 = .ok tx)
    (hkind : (c.method = .credit → c.trd.Typ = Credit) ∧
      (c.method = .debit → c.trd.Typ = Debit)) :
    follows (lastBalance l.Transactions) tx := by
  unfold store.call at h
  cases hm : c.method with
  | credit =>
    rw [hm] at h
    simp only at h
    obtain ⟨l0, hl0, htx, _⟩ := Credit_ok_inv s _ _ _ _ tx h
    rw [hl] at hl0
    cases hl0
    have hk := hkind.1 hm
    rw [htx]
    refine ⟨fun _ => rfl, fun hd => ?_⟩
    simp only at hd
    exact absurd (hk.symm.trans hd) Credit_ne_Debit
  | debit =>
    rw [hm] at h
    simp only at h
    obtain ⟨l0, hl0, _, htx, _⟩ := Debit_ok_inv s _ _ _ _ tx h
    rw [hl] at hl0
    cases hl0
    have hk := hkind.2 hm
    rw [htx]
    refine ⟨fun hd => ?_, fun _ => rfl⟩
    simp only at hd
    exact absurd (hd.symm.trans hk) Credit_ne_Debit

theorem run_chain (s : store) (id : String) (l : Ledger) (cs : List Call)
    (hl : lookup s.ledgers id = some l) (hch : chain 0 l.Transactions)
    (hkind : ∀ c ∈ cs, c.ledgerId = id →
      (c.method = .credit → c.trd.Typ = Credit) ∧ (c.method = .debit → c.trd.Typ = Debit)) :
    ∃ l2, lookup (s.run cs).2.ledgers id = some l2 ∧ chain 0 l2.Transactions := by
  induction cs generalizing s l with
  | nil => exact ⟨l, hl, hch⟩
  | cons c cs ih =>
    simp only [store.run]
    have hrest : ∀ d ∈ cs, d.ledgerId = id →
        (d.method = .credit → d.trd.Typ = Credit) ∧ (d.method = .debit → d.trd.Typ = Debit) :=
      fun d hd => hkind d (List.mem_cons_of_mem c hd)
    cases hr : (s.call c).1 with
    | error e =>
      rw [call_error_store s c e hr]
      exact ih s l hl hch hrest
    | ok tx =>
      obtain ⟨l0, hl0, hpost, _⟩ := call_ok_store s c tx hr
      by_cases hid : c.ledgerId = id
      · have hl1 : lookup s.ledgers c.ledgerId = some l := by rw [hid]; exact hl
        have hf := call_ok_follows s c tx l hl1 hr (hkind c (List.mem_cons_self c cs) hid)
        rw [hl1] at hl0
        cases hl0
        have h2 : lookup (s.call c).2.ledgers id
            = some { l with Transactions := l.Transactions ++ [tx] } := by
          rw [hpost, hid]
          exact lookup_assign_same s.ledgers id l _ hl
        exact ih (s.call c).2 _ h2 (chain_zero_append l.Transactions tx hch hf) hrest
      · have h2 : lookup (s.call c).2.ledgers id = some l := by
          rw [hpost, lookup_assign_other s.ledgers c.ledgerId id _ (fun e => hid e.symm)]
          exact hl
        exact ih (s.call c).2 l h2 hch hrest

/-- C11: starting from a registered ledger whose sequence is empty or already
satisfies the chain, after any sequence of Credit/Debit calls in which each
request on that ledger has the kind of the operation invoked, every transaction
t_i of the ledger has runningBalance round4(prev + amount) if its kind is
credit and round4(prev - amount) if its kind is debit, where prev is the running
balance of t_(i-1), or 0 for the first transaction. -/
theorem running_balance_chain (s : store) (ledgerId : String) (l : Ledger) (cs : List Call)
    (hl : lookup s.ledgers ledgerId = some l)
    (hstart : l.Transactions = [] ∨ chained l.Transactions)
    (hkind : ∀ c ∈ cs, c.ledgerId = ledgerId →
      (c.method = .credit → c.trd.Typ = Credit) ∧ (c.method = .debit → c.trd.Typ = Debit)) :
    ∃ l2, lookup (s.run cs).2.ledgers ledgerId = some l2 ∧
      ∀ i t, l2.Transactions.get? i = some t →
        (t.Typ = Credit →
          t.RunningBalance = round (prevBalance l2.Transactions i + t.Amount) 4) ∧
        (t.Typ = Debit →
          t.RunningBalance = round (prevBalance l2.Transactions i - t.Amount) 4) := by
  have hch : chain 0 l.Transactions := by
    rcases hstart with he | hc
    · rw [he]; trivial
    · exact (chained_iff_chain _).1 hc
  obtain ⟨l2, hl2, hc2⟩ := run_chain s ledgerId l cs hl hch hkind
  exact ⟨l2, hl2, (chained_iff_chain _).2 hc2⟩

/-- Witness for C11: the new ledger `ledger1` credited 100 and then debited
40; both entries of the resulting sequence obey the rule. -/
theorem running_balance_chain_witness :
    ∃ l2, lookup ((storeOf "ledger1" []).run
        [creditCall "ledger1" 100 "a", debitCall "ledger1" 40 "b"]).2.ledgers "ledger1"
          = some l2 ∧
      ∀ i t, l2.Transactions.get? i = some t →
        (t.Typ = Credit →
          t.RunningBalance = round (prevBalance l2.Transactions i + t.Amount) 4) ∧
        (t.Typ = Debit →
          t.RunningBalance = round (prevBalance l2.Transactions i - t.Amount) 4) :=
  running_balance_chain (storeOf "ledger1" []) "ledger1" ⟨"ledger1", "cash", []⟩
    [creditCall "ledger1" 100 "a", debitCall "ledger1" 40 "b"] rfl (Or.inl rfl)
    (by
      intro c hc _
      simp only [List.mem_cons, List.mem_singleton, List.not_mem_nil, or_false] at hc
      rcases hc with rfl | rfl
      · exact ⟨fun _ => rfl, fun h => (by cases h)⟩
      · exact ⟨fun h => (by cases h), fun _ => rfl⟩)

/-! ## What an operation leaves untouched -/

theorem assign_frame (m : List (String × Ledger)) (id : String) (l : Ledger)
    (txs : List Transaction) (hl : lookup m id = some l) :
    (assign m id txs).map Prod.fst = m.map Prod.fst ∧
    (∀ id2, id2 ≠ id → lookup (assign m id txs) id2 = lookup m id2) ∧
    ∃ l2, lookup (assign m id txs) id = some l2 ∧ l2.ID = l.ID ∧ l2.Typ = l.Typ ∧
      l2.Transactions = txs :=
  ⟨map_fst_assign m id txs, fun id2 h => lookup_assign_other m id id2 txs h,
    _, lookup_assign_same m id l txs hl, rfl, rfl, rfl⟩

/-- C12: GetLastBalance and GetTransactionHistory return the store they were
given, and a successful Credit or Debit on ledger L leaves the registered
ledger ids, every ledger other than L, and the id and kind of L unchanged: only
the transaction sequence of L changes, by the appended transaction. -/
theorem only_one_ledger_changes (s : store) (ledgerId : String) :
    (s.GetLastBalance ledgerId).2 = s ∧
    (s.GetTransactionHistory ledgerId).2 = s ∧
    (∀ trd uuid now tx, (s.Credit ledgerId trd uuid now).1 = .ok tx →
      (s.Credit ledgerId trd uuid now).2.ledgers.map Prod.fst = s.ledgers.map Prod.fst ∧
      (∀ id2, id2 ≠ ledgerId →
        lookup (s.Credit ledgerId trd uuid now).2.ledgers id2 = lookup s.ledgers id2) ∧
      ∃ l l2, lookup s.ledgers ledgerId = some l ∧
        lookup (s.Credit ledgerId trd uuid now).2.ledgers ledgerId = some l2 ∧
        l2.ID = l.ID ∧ l2.Typ = l.Typ ∧ l2.Transactions = l.Transactions ++ [tx]) ∧
    (∀ trd uuid now tx, (s.Debit ledgerId trd uuid now).1 = .ok tx →
      (s.Debit ledgerId trd uuid now).2.ledgers.map Prod.fst = s.ledgers.map Prod.fst ∧
      (∀ id2, id2 ≠ ledgerId →
        lookup (s.Debit ledgerId trd uuid now).2.ledgers id2 = lookup s.ledgers id2) ∧
      ∃ l l2, lookup s.ledgers ledgerId = some l ∧
        lookup (s.Debit ledgerId trd uuid now).2.ledgers ledgerId = some l2 ∧
        l2.ID = l.ID ∧ l2.Typ = l.Typ ∧ l2.Transactions = l.Transactions ++ [tx]) := by
  refine ⟨?_, ?_, fun trd uuid now tx hok => ?_, fun trd uuid now tx hok => ?_⟩
  · cases hl : lookup s.ledgers ledgerId with
    | none => rw [GetLastBalance_of_lookup_none s ledgerId hl]
    | some l => rw [GetLastBalance_of_lookup s ledgerId l hl]
  · cases hl : lookup s.ledgers ledgerId with
    | none => rw [GetTransactionHistory_of_lookup_none s ledgerId hl]
    | some l => rw [GetTransactionHistory_of_lookup s ledgerId l hl]
  · obtain ⟨l, hl, _, hpost⟩ := Credit_ok_inv s ledgerId trd uuid now tx hok
    rw [hpost]
    obtain ⟨hk, ho, l2, hl2, h1, h2, h3⟩ :=
      assign_frame s.ledgers ledgerId l (l.Transactions ++ [tx]) hl
    exact ⟨hk, ho, l, l2, hl, hl2, h1, h2, h3⟩
  · obtain ⟨l, hl, _, _, hpost⟩ := Debit_ok_inv s ledgerId trd uuid now tx hok
    rw [hpost]
    obtain ⟨hk, ho, l2, hl2, h1, h2, h3⟩ :=
      assign_frame s.ledgers ledgerId l (l.Transactions ++ [tx]) hl
    exact ⟨hk, ho, l, l2, hl, hl2, h1, h2, h3⟩

/-- Witness for C12: crediting `ledger2` in the store of two ledgers leaves
the keys and `ledger3` as they were. -/
theorem only_one_ledger_changes_witness :
    (twoLedgers.Credit "ledger2" (creditReq "additional deposit" 75) "123" 7).2.ledgers.map
        Prod.fst = twoLedgers.ledgers.map Prod.fst ∧
    lookup (twoLedgers.Credit "ledger2" (creditReq "additional deposit" 75) "123" 7).2.ledgers
        "ledger3" = lookup twoLedgers.ledgers "ledger3" := by
  have key := (only_one_ledger_changes twoLedgers "ledger2").2.2.1
    (creditReq "additional deposit" 75) "123" 7
    ⟨"123", 7, Credit, "additional deposit", 75, 125⟩
    (by norm_num [store.Credit, store.getLedgerWithBalance, lookup, twoLedgers, round,
      mathRound, txOld, creditReq])
  exact ⟨key.1, key.2.1 "ledger3" (by decide)⟩

/-! ## The routing layer -/

theorem DoTransaction_rejected {σ ε : Type} (S : Store σ ε) (st : σ) (ctx : Context)
    (h : ¬ (ctx.ledgerId ≠ "" ∧ ∃ trd, ctx.payload = some trd ∧ 0 < trd.Amount ∧
      (trd.Typ = Credit ∨ trd.Typ = Debit))) :
    (DoTransaction S st ctx).2 = st ∧
    (DoTransaction S st ctx).1.statusCode = StatusBadRequest := by
  unfold DoTransaction
  by_cases h1 : ctx.ledgerId = ""
  · simp only [h1, if_true, ErrorHandler, and_self]
  · simp only [h1, if_false]
    cases hp : ctx.payload with
    | none => simp only [ErrorHandler, and_self]
    | some req =>
      simp only
      by_cases h2 : req.Amount ≤ 0
      · simp only [h2, if_true, ErrorHandler, and_self]
      · simp only [h2, if_false]
        by_cases h3 : req.Typ = Credit ∨ req.Typ = Debit
        · exact absurd ⟨h1, req, hp, not_le.1 h2, h3⟩ h
        · simp only [h3, not_false_eq_true, if_true, ErrorHandler, and_self]

theorem DoTransaction_credit {σ ε : Type} (S : Store σ ε) (st : σ) (ctx : Context)
    (trd : TransactionRequestDTO) (h1 : ctx.ledgerId ≠ "") (h2 : ctx.payload = some trd)
    (h3 : 0 < trd.Amount) (h4 : trd.Typ = Credit) :
    DoTransaction S st ctx =
      ((match (S.Credit st ctx.ledgerId trd).1 with
        | .error err => ErrorHandler StatusInternalServerError
            (.transactionFailed trd.Amount err)
        | .ok res => SuccessHandler StatusOK (.transaction res)),
        (S.Credit st ctx.ledgerId trd).2) := by
  unfold DoTransaction
  simp only [h1, if_false, h2, not_le.2 h3, h4, true_or, not_true_eq_false, if_true]
  cases (S.Credit st ctx.ledgerId trd).1 <;> rfl

theorem DoTransaction_debit {σ ε : Type} (S : Store σ ε) (st : σ) (ctx : Context)
    (trd : TransactionRequestDTO) (h1 : ctx.ledgerId ≠ "") (h2 : ctx.payload = some trd)
    (h3 : 0 < trd.Amount) (h4 : trd.Typ = Debit) :
    DoTransaction S st ctx =
      ((match (S.Debit st ctx.ledgerId trd).1 with
        | .error err => ErrorHandler StatusInternalServerError
            (.transactionFailed trd.Amount err)
        | .ok res => SuccessHandler StatusOK (.transaction res)),
        (S.Debit st ctx.ledgerId trd).2) := by
  have hne : ¬ Debit = Credit := fun e => Credit_ne_Debit e.symm
  unfold DoTransaction
  simp only [h1, if_false, h2, not_le.2 h3, h4, or_true, not_true_eq_false, hne]
  cases (S.Debit st ctx.ledgerId trd).1 <;> rfl

/-- C13: DoTransaction invokes the store at most once, and only when the
ledgerId parameter is non-empty, the payload parses, amount > 0 and kind is
credit or debit; it calls Credit exactly when kind = credit and Debit exactly
when kind = debit, with the route's ledgerId and the parsed request unchanged;
in every other case it answers 400 Bad Request without invoking the store
(stated on the recording store of the tests, and for the state of any store). -/
theorem DoTransaction_guards_store {ε : Type} (r : mock.Returns ε) (ctx : Context) :
    (DoTransaction (mock.Store r) [] ctx).2.length ≤ 1 ∧
    (∀ id trd, Invocation.Credit id trd ∈ (DoTransaction (mock.Store r) [] ctx).2 ↔
      id = ctx.ledgerId ∧ ctx.ledgerId ≠ "" ∧ ctx.payload = some trd ∧ 0 < trd.Amount ∧
        trd.Typ = Credit) ∧
    (∀ id trd, Invocation.Debit id trd ∈ (DoTransaction (mock.Store r) [] ctx).2 ↔
      id = ctx.ledgerId ∧ ctx.ledgerId ≠ "" ∧ ctx.payload = some trd ∧ 0 < trd.Amount ∧
        trd.Typ = Debit) ∧
    (∀ id, Invocation.GetLastBalance id ∉ (DoTransaction (mock.Store r) [] ctx).2 ∧
      Invocation.GetTransactionHistory id ∉ (DoTransaction (mock.Store r) [] ctx).2) ∧
    (¬ (ctx.ledgerId ≠ "" ∧ ∃ trd, ctx.payload = some trd ∧ 0 < trd.Amount ∧
        (trd.Typ = Credit ∨ trd.Typ = Debit)) →
      (DoTransaction (mock.Store r) [] ctx).2 = [] ∧
      (DoTransaction (mock.Store r) [] ctx).1.statusCode = StatusBadRequest ∧
      ∀ (σ : Type) (S : Store σ ε) (st : σ), (DoTransaction S st ctx).2 = st ∧
        (DoTransaction S st ctx).1.statusCode = StatusBadRequest) := by
  by_cases hacc : ctx.ledgerId ≠ "" ∧ ∃ trd, ctx.payload = some trd ∧ 0 < trd.Amount ∧
      (trd.Typ = Credit ∨ trd.Typ = Debit)
  · obtain ⟨h1, req, h2, h3, h4⟩ := hacc
    have hacc2 : ctx.ledgerId ≠ "" ∧ ∃ trd, ctx.payload = some trd ∧ 0 < trd.Amount ∧
      (trd.Typ = Credit ∨ trd.Typ = Debit) := ⟨h1, req, h2, h3, h4⟩
    rcases h4 with h4 | h4
    · rw [DoTransaction_credit (mock.Store r) [] ctx req h1 h2 h3 h4]
      have hnd : ¬ req.Typ = Debit := fun e => Credit_ne_Debit (h4.symm.trans e)
      refine ⟨by simp [mock.Store], fun id trd => ?_, fun id trd => ?_, fun id => ?_,
        fun hn => absurd hacc2 hn⟩
      · simp only [mock.Store, List.nil_append, List.mem_singleton, Invocation.Credit.injEq]
        constructor
        · rintro ⟨rfl, rfl⟩
          exact ⟨rfl, h1, h2, h3, h4⟩
        · rintro ⟨hid, _, hp, _, _⟩
          rw [h2] at hp
          exact ⟨hid, (Option.some.inj hp).symm⟩
      · simp only [mock.Store, List.nil_append, List.mem_singleton]
        constructor
        · intro h; cases h
        · rintro ⟨_, _, hp, _, ht⟩
          rw [h2] at hp
          cases hp
          exact absurd ht hnd
      · simp [mock.Store]
    · rw [DoTransaction_debit (mock.Store r) [] ctx req h1 h2 h3 h4]
      have hnc : ¬ req.Typ = Credit := fun e => Credit_ne_Debit (e.symm.trans h4)
      refine ⟨by simp [mock.Store], fun id trd => ?_, fun id trd => ?_, fun id => ?_,
        fun hn => absurd hacc2 hn⟩
      · simp only [mock.Store, List.nil_append, List.mem_singleton]
        constructor
        · intro h; cases h
        · rintro ⟨_, _, hp, _, ht⟩
          rw [h2] at hp
          cases hp
          exact absurd ht hnc
      · simp only [mock.Store, List.nil_append, List.mem_singleton, Invocation.Debit.injEq]
        constructor
        · rintro ⟨rfl, rfl⟩
          exact ⟨rfl, h1, h2, h3, h4⟩
        · rintro ⟨hid, _, hp, _, _⟩
          rw [h2] at hp
          exact ⟨hid, (Option.some.inj hp).symm⟩
      · simp [mock.Store]
  · have hrej := DoTransaction_rejected (mock.Store r) [] ctx hacc
    rw [hrej.1]
    refine ⟨by simp, fun id trd => ?_, fun id trd => ?_, fun id => by simp,
      fun _ => ⟨rfl, hrej.2, fun σ S st => DoTransaction_rejected S st ctx hacc⟩⟩
    · simp only [List.not_mem_nil, false_iff]
      rintro ⟨_, h1, hp, h3, ht⟩
      exact hacc ⟨h1, trd, hp, h3, Or.inl ht⟩
    · simp only [List.not_mem_nil, false_iff]
      rintro ⟨_, h1, hp, h3, ht⟩
      exact hacc ⟨h1, trd, hp, h3, Or.inr ht⟩

/-- Witness for C13: in `TestDoTransaction`, the request without ledgerId
answers 400 and records no call, and the valid credit request records the call
`Credit "ledger1" req`. -/
theorem DoTransaction_guards_store_witness :
    ((DoTransaction (mock.Store testReturns) [] ⟨"", some (creditReq "deposit" 100)⟩).2 = [] ∧
      (DoTransaction (mock.Store testReturns) []
        ⟨"", some (creditReq "deposit" 100)⟩).1.statusCode = StatusBadRequest) ∧
    Invocation.Credit "ledger1" (creditReq "deposit" 100) ∈
      (DoTransaction (mock.Store testReturns) []
        ⟨"ledger1", some (creditReq "deposit" 100)⟩).2 := by
  have k1 := (DoTransaction_guards_store testReturns
    ⟨"", some (creditReq "deposit" 100)⟩).2.2.2.2 (by simp)
  have k2 := ((DoTransaction_guards_store testReturns
    ⟨"ledger1", some (creditReq "deposit" 100)⟩).2.1 "ledger1" (creditReq "deposit" 100)).2
    ⟨rfl, by decide, rfl, by norm_num [creditReq], rfl⟩
  exact ⟨⟨k1.1, k1.2.1⟩, k2⟩

/-! ## Store errors at the routing layer -/

/-- Counterexample to C14: on the in-memory store, a credit on the unknown
ledger `ledger4` (LedgerNotFound), a debit of 75 on `ledger5` with balance 50
(InsufficientFunds), and the two reads of `ledger4` are all answered with
status 500, not with a client error (4xx). -/
theorem domain_errors_get_500_counterexample :
    (DoTransaction (NewStore "123" 0) (storeOf "ledger1" [])
        ⟨"ledger4", some (creditReq "deposit" 100)⟩).1
      = ⟨500, .error (.transactionFailed 100 .LedgerNotFound)⟩ ∧
    (DoTransaction (NewStore "123" 0) (storeOf "ledger5" [txOld 50 50])
        ⟨"ledger5", some (debitReq "withdrawal exceeding funds" 75)⟩).1
      = ⟨500, .error (.transactionFailed 75 .InsufficientFunds)⟩ ∧
    (ViewBalance (NewStore "123" 0) (storeOf "ledger1" []) ⟨"ledger4", none⟩).1
      = ⟨500, .error (.viewBalanceFailed .LedgerNotFound)⟩ ∧
    (ViewTransactionHistory (NewStore "123" 0) (storeOf "ledger1" []) ⟨"ledger4", none⟩).1
      = ⟨500, .error (.viewTransactionHistoryFailed .LedgerNotFound)⟩ := by
  refine ⟨?_, ?_, ?_, ?_⟩
  · rw [DoTransaction_credit _ _ _ (creditReq "deposit" 100) (by decide) rfl
      (by norm_num [creditReq]) rfl]
    rw [show ((NewStore "123" 0).Credit (storeOf "ledger1" []) "ledger4"
        (creditReq "deposit" 100)).1 = .error .LedgerNotFound from
      congrArg Prod.fst (Credit_of_lookup_none (storeOf "ledger1" []) "ledger4"
        (creditReq "deposit" 100) "123" 0 rfl)]
    rfl
  · rw [DoTransaction_debit _ _ _ (debitReq "withdrawal exceeding funds" 75) (by decide) rfl
      (by norm_num [debitReq]) rfl]
    rw [show ((NewStore "123" 0).Debit (storeOf "ledger5" [txOld 50 50]) "ledger5"
        (debitReq "withdrawal exceeding funds" 75)).1 = .error .InsufficientFunds from
      congrArg Prod.fst (Debit_of_lookup_nonpos (storeOf "ledger5" [txOld 50 50]) "ledger5"
        ⟨"ledger5", "cash", [txOld 50 50]⟩ (debitReq "withdrawal exceeding funds" 75) "123" 0
        rfl (by norm_num [lastBalance, txOld, debitReq]))]
    rfl
  · simp [ViewBalance, NewStore, store.GetLastBalance, store.getLedgerWithBalance, lookup,
      storeOf, ErrorHandler, StatusInternalServerError]
  · simp [ViewTransactionHistory, NewStore, store.GetTransactionHistory,
      store.getLedgerWithBalance, lookup, storeOf, ErrorHandler, StatusInternalServerError]

/-- C14 (amended): for any store, the routing layer answers input-validation
failures (missing identifier, unparsable payload, non-positive amount, invalid
kind) with 400 Bad Request, and every error it receives from the store,
LedgerNotFound and InsufficientFunds included, with 500 Internal Server Error:
DoTransaction when Credit or Debit returns an error, ViewBalance when
GetLastBalance does, ViewTransactionHistory when GetTransactionHistory does. -/
theorem store_errors_answered_500 {σ ε : Type} (S : Store σ ε) (st : σ) (ctx : Context) :
    (∀ trd err, ctx.ledgerId ≠ "" → ctx.payload = some trd → 0 < trd.Amount →
      trd.Typ = Credit → (S.Credit st ctx.ledgerId trd).1 = .error err →
      (DoTransaction S st ctx).1
        = ⟨StatusInternalServerError, .error (.transactionFailed trd.Amount err)⟩) ∧
    (∀ trd err, ctx.ledgerId ≠ "" → ctx.payload = some trd → 0 < trd.Amount →
      trd.Typ = Debit → (S.Debit st ctx.ledgerId trd).1 = .error err →
      (DoTransaction S st ctx).1
        = ⟨StatusInternalServerError, .error (.transactionFailed trd.Amount err)⟩) ∧
    (∀ err, ctx.ledgerId ≠ "" → (S.GetLastBalance st ctx.ledgerId).1 = .error err →
      (ViewBalance S st ctx).1
        = ⟨StatusInternalServerError, .error (.viewBalanceFailed err)⟩) ∧
    (∀ err, ctx.ledgerId ≠ "" → (S.GetTransactionHistory st ctx.ledgerId).1 = .error err →
      (ViewTransactionHistory S st ctx).1
        = ⟨StatusInternalServerError, .error (.viewTransactionHistoryFailed err)⟩) ∧
    (¬ (ctx.ledgerId ≠ "" ∧ ∃ trd, ctx.payload = some trd ∧ 0 < trd.Amount ∧
        (trd.Typ = Credit ∨ trd.Typ = Debit)) →
      (DoTransaction S st ctx).1.statusCode = StatusBadRequest) ∧
    (ctx.ledgerId = "" →
      (ViewBalance S st ctx).1.statusCode = StatusBadRequest ∧
      (ViewTransactionHistory S st ctx).1.statusCode = StatusBadRequest) := by
  refine ⟨fun trd err h1 h2 h3 h4 he => ?_, fun trd err h1 h2 h3 h4 he => ?_,
    fun err h1 he => ?_, fun err h1 he => ?_,
    fun hrej => (DoTransaction_rejected S st ctx hrej).2, fun h0 => ?_⟩
  · rw [DoTransaction_credit S st ctx trd h1 h2 h3 h4, he]
    rfl
  · rw [DoTransaction_debit S st ctx trd h1 h2 h3 h4, he]
    rfl
  · unfold ViewBalance
    simp only [h1, if_false, he]
    rfl
  · unfold ViewTransactionHistory
    simp only [h1, if_false, he]
    rfl
  · unfold ViewBalance ViewTransactionHistory
    simp only [h0, if_true, ErrorHandler, and_self]

/-- Witness for C14 (amended): the credit on the unknown ledger `ledger4` of
the in-memory store is answered with status 500. -/
theorem store_errors_answered_500_witness :
    (DoTransaction (NewStore "123" 0) (storeOf "ledger1" [])
        ⟨"ledger4", some (creditReq "deposit" 100)⟩).1
      = ⟨StatusInternalServerError, .error (.transactionFailed 100 .LedgerNotFound)⟩ :=
  (store_errors_answered_500 (NewStore "123" 0) (storeOf "ledger1" [])
    ⟨"ledger4", some (creditReq "deposit" 100)⟩).1 (creditReq "deposit" 100) .LedgerNotFound
    (by decide) rfl (by norm_num [creditReq]) rfl
    (congrArg Prod.fst (Credit_of_lookup_none (storeOf "ledger1" []) "ledger4"
      (creditReq "deposit" 100) "123" 0 rfl))

end ledger
